import Mathlib

/-!
# Access point reconciliation loop (`network` package)

A shallow embedding of `network/access_point.go`, `network/unifi.go` and
`network/switch.go`.

* Go values of type `[6]T` are functions `Fin 6 → T`; a `*model.Team` is an
  `Option Team` (`none` is the nil pointer).
* A Go `error` result is an `Option Error` (`none` is `nil`).
* The controller is reached over HTTP.  The HTTP stack is an oracle `Env`;
  every request handed to `client.Do`, every sleep and every line printed is
  appended to a trace of `Event`s, oldest first.  The oracle answers a request
  as a function of the trace so far, so it may change its answers over time.
* Unbounded loops take a fuel argument that bounds the number of iterations.
* The mutex of `UnifiClient` only excludes other goroutines and is not
  modelled; every function here is one sequential execution.
-/

namespace Network

/-! ## Data model -/

/-- Modelled from the spec: the type `model.Team` is declared in the `model`
package, which is not among the sources; the code here reads only its integer
field `Id`. -/
structure Team where
  Id : Int
deriving DecidableEq, Repr

/-- The Go type `[6]*model.Team`. -/
abbrev Teams := Fin 6 → Option Team

def accessPointSshPort : Nat := 22
def accessPointConnectTimeoutSec : Nat := 1
def accessPointCommandTimeoutSec : Nat := 5
def accessPointPollPeriodSec : Nat := 3
def accessPointRequestBufferSize : Nat := 10
def accessPointConfigRetryIntervalSec : Nat := 5

structure UnifiIds where
  Red1NetworkId : String
  Red2NetworkId : String
  Red3NetworkId : String
  Blue1NetworkId : String
  Blue2NetworkId : String
  Blue3NetworkId : String
  Red1WifiId : String
  Red2WifiId : String
  Red3WifiId : String
  Blue1WifiId : String
  Blue2WifiId : String
  Blue3WifiId : String
deriving DecidableEq, Repr

/-- The fields of `UnifiClient` that the code reads; `client` is the oracle
`Env` below and `mutex` is not modelled. -/
structure UnifiClient where
  unifiAddress : String
  unifiUsername : String
  unifiPassword : String
  networkIds : UnifiIds
deriving DecidableEq, Repr

structure UnifiConfiguredSsids where
  red1Ssid : String
  red2Ssid : String
  red3Ssid : String
  blue1Ssid : String
  blue2Ssid : String
  blue3Ssid : String
deriving DecidableEq, Repr

structure UnifiWlanconfigData where
  Name : String
  Id : String
deriving DecidableEq, Repr

structure TeamWifiStatus where
  TeamId : Int
  RadioLinked : Bool
deriving DecidableEq, Repr

/-- A buffered channel `chan [6]*model.Team`: its capacity and the values
buffered in it, oldest first. -/
structure Chan where
  cap : Nat
  buf : List Teams

structure AccessPoint where
  unifi : Option UnifiClient
  configRequestChan : Option Chan
  TeamWifiStatuses : Fin 6 → TeamWifiStatus
  initialStatusesFetched : Bool

/-! ## Errors, requests and the trace -/

/-- The error values the package builds, one constructor per `fmt.Errorf`
site (the wrapped cause of a transport error is not kept). -/
inductive Error where
  | creatingLoginRequest
  | executingLoginRequest
  | unexpectedLoginStatus (code : Int)
  | creatingNetworkConfigRequest
  | executingNetworkConfigRequest
  | readingNetworkConfigBody
  | unexpectedNetworkconfStatus (code : Int) (body : String)
  | creatingWlanConfigRequest (teamId : Int)
  | executingWlanConfigRequest (teamId : Int)
  | unexpectedStatus (code : Int)
  | creatingWifiStatusRequest
  | executingWifiStatusRequest
  | unexpectedWifiStatusStatus (code : Int)
  | readingWifiStatusBody
  | parsingWifiStatusBody
  | gettingWifiInfo (cause : Error)
  | bufferFull
deriving DecidableEq, Repr

/-- The four HTTP requests the package builds, by method, URL parts and JSON
fields.  The three strings of a network configuration body are all formatted
from the two octets, which stand for them here. -/
inductive HttpRequest where
  | login (address username password : String)
  | putNetworkconf (address networkId : String) (octet1 octet2 : Int)
  | putWlanconf (address wifiId networkconf_id name x_passphrase : String)
  | getWlanconf (address : String)
deriving DecidableEq, Repr

/-- What `client.Do` hands back on success: the status code, and what
`io.ReadAll(resp.Body)` would return (the bytes, and whether it reports an
error). -/
structure HttpResponse where
  StatusCode : Int
  body : String
  readFailed : Bool
deriving DecidableEq, Repr

/-- The lines written with `fmt.Printf` and `log.Printf`. -/
inductive Output where
  | loggedIn
  | configuredNetwork (octet1 octet2 : Int)
  | wlanJson (networkconf_id name x_passphrase : String)
  | wlanResponseBody (body : String)
  | configuredWlan (teamId : Int)
  | teams (ts : List (Option Team))
  | errorConfiguringWifi (err : Error)
  | successAfter (attemptCount : Int)
  | stillIncorrect (attemptCount : Int)
deriving DecidableEq, Repr

inductive Event where
  | http (req : HttpRequest)
  | sleep (seconds : Nat)
  | out (o : Output)
deriving DecidableEq, Repr

/-- The world outside the process.  `newRequestFails` is `http.NewRequest`
reporting an error (a function of the request alone), `roundTrip` is
`client.Do` (`none` is a transport error) and may depend on everything that
happened before, `unmarshal` is `json.Unmarshal` into a
`UnifiWlanconfigResponse` (`none` is a decoding error). -/
structure Env where
  newRequestFails : HttpRequest → Bool
  roundTrip : List Event → HttpRequest → Option HttpResponse
  unmarshal : String → Option (List UnifiWlanconfigData)

/-- Ways an execution of the model stops without a result. -/
inductive Fault where
  | nilPointer
  | blocked
  | outOfFuel
deriving DecidableEq, Repr

/-! ## `access_point.go`: convergence check -/

/-- The body of the `range` loop of `configIsCorrectForTeams`, over the slots
still to visit. -/
def configIsCorrectLoop (ap : AccessPoint) (teams : Teams) : List (Fin 6) → Bool
  | [] => true
  | i :: rest =>
    let team := teams i
    let expectedTeamId : Int :=
      match team with
      | some t => t.Id
      | none => 0
    if team ≠ none ∧ (ap.TeamWifiStatuses i).TeamId ≠ expectedTeamId then false
    else configIsCorrectLoop ap teams rest

def configIsCorrectForTeams (ap : AccessPoint) (teams : Teams) : Bool :=
  if !ap.initialStatusesFetched then false
  else configIsCorrectLoop ap teams (List.finRange 6)

/-! ## `strconv.Atoi` (Go standard library, 64-bit `int`)

`len(s)` is the length in bytes.  The digit loops below visit characters
instead of bytes: every byte of a character outside ASCII is at least `0x80`,
so it is neither a sign nor a digit, exactly like the character itself. -/

inductive NumError where
  | syntaxErr
  | rangeErr
deriving DecidableEq, Repr

def maxUint64 : Nat := 2 ^ 64 - 1

/-- The digit loop of `strconv.ParseUint(s, 10, 64)`: returns `maxVal` with a
range error as soon as the value overflows, without looking at what is
left. -/
def parseUintLoop : List Char → Nat → Nat × Option NumError
  | [], n => (n, none)
  | c :: cs, n =>
    if c.isDigit then
      let d := c.toNat - 48
      if n ≥ maxUint64 / 10 + 1 then (maxUint64, some .rangeErr)
      else
        let n1 := n * 10 + d
        if n1 > maxUint64 then (maxUint64, some .rangeErr)
        else parseUintLoop cs n1
    else (0, some .syntaxErr)

def ParseUint (s : List Char) : Nat × Option NumError :=
  if s = [] then (0, some .syntaxErr) else parseUintLoop s 0

/-- The function `strconv.ParseInt(s, 10, 0)`. -/
def ParseInt (s : List Char) : Int × Option NumError :=
  match s with
  | [] => (0, some .syntaxErr)
  | c :: cs =>
    let neg := c = '-'
    let rest := if c = '+' ∨ c = '-' then cs else c :: cs
    match ParseUint rest with
    | (_, some .syntaxErr) => (0, some .syntaxErr)
    | (un, _) =>
      let cutoff : Nat := 2 ^ 63
      if ¬ neg ∧ un ≥ cutoff then ((cutoff : Int) - 1, some .rangeErr)
      else if neg ∧ un > cutoff then (-(cutoff : Int), some .rangeErr)
      else if neg then (-(un : Int), none)
      else ((un : Int), none)

/-- The digit loop of the fast path of `Atoi`. -/
def atoiFastLoop : List Char → Int → Option Int
  | [], n => some n
  | c :: cs, n => if c.isDigit then atoiFastLoop cs (n * 10 + ((c.toNat - 48 : Nat) : Int)) else none

/-- The function `strconv.Atoi`: the value and the error it returns. -/
def Atoi (s : String) : Int × Option NumError :=
  let sLen := s.utf8ByteSize
  if 0 < sLen ∧ sLen < 19 then
    match s.data with
    | [] => (0, some .syntaxErr)
    | c :: cs =>
      let digits := if c = '-' ∨ c = '+' then cs else c :: cs
      if digits = [] then (0, some .syntaxErr)
      else
        match atoiFastLoop digits 0 with
        | none => (0, some .syntaxErr)
        | some n => if c = '-' then (-n, none) else (n, none)
  else ParseInt s.data

/-- The verb `%d` of `fmt.Sprintf` on an `int`. -/
def formatInt (n : Int) : String := toString n

/-- Conversion of an `int` result to its 64-bit two's complement value
(what `attemptCount++` does at the top of the range). -/
def wrapInt64 (n : Int) : Int := (n + 2 ^ 63) % 2 ^ 64 - 2 ^ 63

/-! ## `unifi.go` -/

def unifiLogin (env : Env) (unifi : UnifiClient) (tr : List Event) : List Event × Option Error :=
  let req := HttpRequest.login unifi.unifiAddress unifi.unifiUsername unifi.unifiPassword
  if env.newRequestFails req then (tr, some .creatingLoginRequest)
  else
    match env.roundTrip tr req with
    | none => (tr ++ [.http req], some .executingLoginRequest)
    | some resp =>
      if resp.StatusCode ≠ 200 then
        (tr ++ [.http req], some (.unexpectedLoginStatus resp.StatusCode))
      else (tr ++ [.http req, .out .loggedIn], none)

/-- The closure `configureNetwork` of `unifiConfigureNetworks`. -/
def configureNetwork (env : Env) (unifi : UnifiClient) (tr : List Event)
    (octet1 octet2 : Int) (networkId : String) : List Event × Option Error :=
  let req := HttpRequest.putNetworkconf unifi.unifiAddress networkId octet1 octet2
  if env.newRequestFails req then (tr, some .creatingNetworkConfigRequest)
  else
    match env.roundTrip tr req with
    | none => (tr ++ [.http req], some .executingNetworkConfigRequest)
    | some resp =>
      if resp.StatusCode ≠ 200 then
        if resp.readFailed then (tr ++ [.http req], some .readingNetworkConfigBody)
        else (tr ++ [.http req], some (.unexpectedNetworkconfStatus resp.StatusCode resp.body))
      else (tr ++ [.http req, .out (.configuredNetwork octet1 octet2)], none)

/-- The array `networkIds` built in both configure functions. -/
def networkIdsOf (ids : UnifiIds) : Fin 6 → String :=
  ![ids.Red1NetworkId, ids.Red2NetworkId, ids.Red3NetworkId,
    ids.Blue1NetworkId, ids.Blue2NetworkId, ids.Blue3NetworkId]

/-- The array `wlanIds` built in `unifiConfigureWifi`. -/
def wlanIdsOf (ids : UnifiIds) : Fin 6 → String :=
  ![ids.Red1WifiId, ids.Red2WifiId, ids.Red3WifiId,
    ids.Blue1WifiId, ids.Blue2WifiId, ids.Blue3WifiId]

/-- The body of the `for i := 0; i < 6; i++` loop of `unifiConfigureNetworks`,
over the slots still to visit. -/
def unifiConfigureNetworksLoop (env : Env) (unifi : UnifiClient) (teams : Teams) :
    List (Fin 6) → List Event → List Event × Option Error
  | [], tr => (tr, none)
  | i :: rest, tr =>
    match teams i with
    | none => unifiConfigureNetworksLoop env unifi teams rest tr
    | some team =>
      match configureNetwork env unifi tr 0 (101 + (i.val : Int)) (networkIdsOf unifi.networkIds i) with
      | (tr1, some err) => (tr1, some err)
      | (tr1, none) =>
        match configureNetwork env unifi tr1 (team.Id.tdiv 100) (team.Id.tmod 100)
            (networkIdsOf unifi.networkIds i) with
        | (tr2, some err) => (tr2, some err)
        | (tr2, none) => unifiConfigureNetworksLoop env unifi teams rest tr2

def unifiConfigureNetworks (env : Env) (unifi : UnifiClient) (tr : List Event) (teams : Teams) :
    List Event × Option Error :=
  unifiConfigureNetworksLoop env unifi teams (List.finRange 6) tr

/-- The closure `configureWlan` of `unifiConfigureWifi`. -/
def configureWlan (env : Env) (unifi : UnifiClient) (tr : List Event)
    (team : Team) (networkId wifiId : String) : List Event × Option Error :=
  let name := formatInt team.Id
  let req := HttpRequest.putWlanconf unifi.unifiAddress wifiId networkId name "bluegold"
  let tr1 := tr ++ [.out (.wlanJson networkId name "bluegold")]
  if env.newRequestFails req then (tr1, some (.creatingWlanConfigRequest team.Id))
  else
    match env.roundTrip tr1 req with
    | none => (tr1 ++ [.http req], some (.executingWlanConfigRequest team.Id))
    | some resp =>
      if resp.StatusCode ≠ 200 then (tr1 ++ [.http req], some (.unexpectedStatus resp.StatusCode))
      else
        (tr1 ++ [.http req, .out (.wlanResponseBody resp.body), .out (.configuredWlan team.Id)], none)

/-- The body of the `for i := 0; i < 6; i++` loop of `unifiConfigureWifi`, over
the slots still to visit. -/
def unifiConfigureWifiLoop (env : Env) (unifi : UnifiClient) (teams : Teams) :
    List (Fin 6) → List Event → List Event × Option Error
  | [], tr => (tr, none)
  | i :: rest, tr =>
    match teams i with
    | none => unifiConfigureWifiLoop env unifi teams rest tr
    | some team =>
      match configureWlan env unifi (tr ++ [.out (.configuredWlan team.Id)]) team
          (networkIdsOf unifi.networkIds i) (wlanIdsOf unifi.networkIds i) with
      | (tr1, some err) => (tr1, some err)
      | (tr1, none) => unifiConfigureWifiLoop env unifi teams rest tr1

def unifiConfigureWifi (env : Env) (unifi : UnifiClient) (tr : List Event) (teams : Teams) :
    List Event × Option Error :=
  unifiConfigureWifiLoop env unifi teams (List.finRange 6) tr

/-- The body of the `range wlanconfigResponse.Data` loop of
`unifiGetConfiguredSsids`. -/
def assignSsid (ids : UnifiIds) (c : UnifiConfiguredSsids) (wlan : UnifiWlanconfigData) :
    UnifiConfiguredSsids :=
  let c := if wlan.Id = ids.Red1WifiId then { c with red1Ssid := wlan.Name } else c
  let c := if wlan.Id = ids.Red2WifiId then { c with red2Ssid := wlan.Name } else c
  let c := if wlan.Id = ids.Red3WifiId then { c with red3Ssid := wlan.Name } else c
  let c := if wlan.Id = ids.Blue1WifiId then { c with blue1Ssid := wlan.Name } else c
  let c := if wlan.Id = ids.Blue2WifiId then { c with blue2Ssid := wlan.Name } else c
  let c := if wlan.Id = ids.Blue3WifiId then { c with blue3Ssid := wlan.Name } else c
  c

def unifiGetConfiguredSsids (env : Env) (unifi : UnifiClient) (tr : List Event) :
    List Event × Except Error UnifiConfiguredSsids :=
  let req := HttpRequest.getWlanconf unifi.unifiAddress
  if env.newRequestFails req then (tr, .error .creatingWifiStatusRequest)
  else
    match env.roundTrip tr req with
    | none => (tr ++ [.http req], .error .executingWifiStatusRequest)
    | some resp =>
      if resp.StatusCode ≠ 200 then
        (tr ++ [.http req], .error (.unexpectedWifiStatusStatus resp.StatusCode))
      else if resp.readFailed then (tr ++ [.http req], .error .readingWifiStatusBody)
      else
        match env.unmarshal resp.body with
        | none => (tr ++ [.http req], .error .parsingWifiStatusBody)
        | some data =>
          (tr ++ [.http req], .ok (data.foldl (assignSsid unifi.networkIds) ⟨"", "", "", "", "", ""⟩))

/-! ## `switch.go` -/

structure Switch where
  unifi : Option UnifiClient

def ConfigureTeamEthernet (env : Env) (sw : Switch) (tr : List Event) (teams : Teams) :
    Except Fault (List Event × Option Error) :=
  match sw.unifi with
  | none => .error .nilPointer
  | some unifi =>
    match unifiLogin env unifi tr with
    | (tr1, some err) => .ok (tr1, some err)
    | (tr1, none) =>
      match unifiConfigureNetworks env unifi tr1 teams with
      | (tr2, some err) => .ok (tr2, some err)
      | (tr2, none) => .ok (tr2, none)

/-! ## `access_point.go` -/

def SetSettings (ap : AccessPoint) (unifi : Option UnifiClient) : AccessPoint :=
  let ap := { ap with unifi := unifi }
  match ap.configRequestChan with
  | none => { ap with configRequestChan := some ⟨accessPointRequestBufferSize, []⟩ }
  | some _ => ap

/-- A send in a `select` with a `default` case: it goes through when the
buffer has room; a nil channel is never ready. -/
def ConfigureTeamWifi (ap : AccessPoint) (teams : Teams) : AccessPoint × Option Error :=
  match ap.configRequestChan with
  | none => (ap, some .bufferFull)
  | some ch =>
    if ch.buf.length < ch.cap then
      ({ ap with configRequestChan := some { ch with buf := ch.buf ++ [teams] } }, none)
    else (ap, some .bufferFull)

def ConfigureAdminWifi (_ap : AccessPoint) : Option Error := none

/-- The assignment `ap.TeamWifiStatuses[i].TeamId = v`. -/
def setTeamId (ap : AccessPoint) (i : Fin 6) (v : Int) : AccessPoint :=
  { ap with TeamWifiStatuses :=
      Function.update ap.TeamWifiStatuses i { ap.TeamWifiStatuses i with TeamId := v } }

/-- The six assignments of the `else` branch of `updateTeamWifiStatuses`; the
error of each `strconv.Atoi` is dropped. -/
def storeSsids (ap : AccessPoint) (output : UnifiConfiguredSsids) : AccessPoint :=
  let ap := setTeamId ap 0 (Atoi output.red1Ssid).1
  let ap := setTeamId ap 1 (Atoi output.red2Ssid).1
  let ap := setTeamId ap 2 (Atoi output.red3Ssid).1
  let ap := setTeamId ap 3 (Atoi output.blue1Ssid).1
  let ap := setTeamId ap 4 (Atoi output.blue2Ssid).1
  let ap := setTeamId ap 5 (Atoi output.blue3Ssid).1
  ap

/-- The statement `if !ap.initialStatusesFetched { ap.initialStatusesFetched = true }`. -/
def markFetched (ap : AccessPoint) : AccessPoint :=
  if !ap.initialStatusesFetched then { ap with initialStatusesFetched := true } else ap

/-- The identifier read for a slot. -/
def ssidOf (output : UnifiConfiguredSsids) : Fin 6 → String :=
  ![output.red1Ssid, output.red2Ssid, output.red3Ssid,
    output.blue1Ssid, output.blue2Ssid, output.blue3Ssid]

def updateTeamWifiStatuses (env : Env) (ap : AccessPoint) (tr : List Event) :
    Except Fault (AccessPoint × List Event × Option Error) :=
  match ap.unifi with
  | none => .error .nilPointer
  | some unifi =>
    match unifiLogin env unifi tr with
    | (tr1, some err) => .ok (ap, tr1, some err)
    | (tr1, none) =>
      match unifiGetConfiguredSsids env unifi tr1 with
      | (tr2, .error err) => .ok (ap, tr2, some (.gettingWifiInfo err))
      | (tr2, .ok output) =>
        .ok (markFetched (storeSsids ap output), tr2, none)

/-- One pass through the body of the `for` loop of
`handleTeamWifiConfiguration`.  The flag returned is `true` when the pass ends
in `return` and `false` when it ends in the next iteration.  The variable
`err` tested around the sleep is the result of the login: the result of
`unifiConfigureWifi` is bound to a new `err` inside the first `if`. -/
def configAttempt (env : Env) (ap : AccessPoint) (tr : List Event) (teams : Teams)
    (attemptCount : Int) : Except Fault (AccessPoint × List Event × Bool) :=
  match ap.unifi with
  | none => .error .nilPointer
  | some unifi =>
    let (tr1, err) := unifiLogin env unifi tr
    let tr2 :=
      match err with
      | none =>
        match unifiConfigureWifi env unifi tr1 teams with
        | (tr2, some err2) => tr2 ++ [.out (.errorConfiguringWifi err2)]
        | (tr2, none) => tr2
      | some _ => tr1
    let tr3 := tr2 ++ [.sleep accessPointConfigRetryIntervalSec]
    match err with
    | none =>
      match updateTeamWifiStatuses env ap tr3 with
      | .error f => .error f
      | .ok (ap1, tr4, err3) =>
        if err3 = none ∧ configIsCorrectForTeams ap1 teams = true then
          .ok (ap1, tr4 ++ [.out (.successAfter attemptCount)], true)
        else .ok (ap1, tr4 ++ [.out (.stillIncorrect attemptCount)], false)
    | some _ => .ok (ap, tr3 ++ [.out (.stillIncorrect attemptCount)], false)

/-- The `for` loop of `handleTeamWifiConfiguration`, cut off after `fuel`
passes. -/
def handleLoop (env : Env) (teams : Teams) :
    Nat → AccessPoint → List Event → Int → Except Fault (AccessPoint × List Event)
  | 0, _, _, _ => .error .outOfFuel
  | fuel + 1, ap, tr, attemptCount =>
    match configAttempt env ap tr teams attemptCount with
    | .error f => .error f
    | .ok (ap1, tr1, true) => .ok (ap1, tr1)
    | .ok (ap1, tr1, false) => handleLoop env teams fuel ap1 tr1 (wrapInt64 (attemptCount + 1))

def handleTeamWifiConfiguration (fuel : Nat) (env : Env) (ap : AccessPoint) (tr : List Event)
    (teams : Teams) : Except Fault (AccessPoint × List Event) :=
  let tr0 := tr ++ [.out (.teams (List.ofFn teams))]
  if configIsCorrectForTeams ap teams then .ok (ap, tr0)
  else handleLoop env teams fuel ap tr0 1

/-- The inner loop of `Run`: `numExtraRequests` further receives, each
replacing `request`.  A receive from an empty buffer waits for a sender, of
which the model has none. -/
def drainExtra : Nat → Teams → List Teams → Except Fault (Teams × List Teams)
  | 0, request, buf => .ok (request, buf)
  | _ + 1, _, [] => .error .blocked
  | n + 1, _, next :: buf => drainExtra n next buf

/-- One pass through the body of the `for` loop of `Run`, with no other
goroutine sending meanwhile: the request case is taken when a request is
buffered, the timer case (after the poll period) when none is.  The handling
of a request gets `fuel` passes of its retry loop. -/
def runIteration (fuel : Nat) (env : Env) (ap : AccessPoint) (tr : List Event) :
    Except Fault (AccessPoint × List Event) :=
  let timerCase : Except Fault (AccessPoint × List Event) :=
    match updateTeamWifiStatuses env ap (tr ++ [.sleep accessPointPollPeriodSec]) with
    | .error f => .error f
    | .ok (ap1, tr1, _) => .ok (ap1, tr1)
  match ap.configRequestChan with
  | none => timerCase
  | some ch =>
    match ch.buf with
    | [] => timerCase
    | request :: buf =>
      let numExtraRequests := buf.length
      match drainExtra numExtraRequests request buf with
      | .error f => .error f
      | .ok (request, buf) =>
        handleTeamWifiConfiguration fuel env
          { ap with configRequestChan := some { ch with buf := buf } } tr request

/-- `Run`: `n` passes through its loop. -/
def Run (fuel : Nat) (env : Env) : Nat → AccessPoint → List Event →
    Except Fault (AccessPoint × List Event)
  | 0, ap, tr => .ok (ap, tr)
  | n + 1, ap, tr =>
    match runIteration fuel env ap tr with
    | .error f => .error f
    | .ok (ap1, tr1) => Run fuel env n ap1 tr1

/-- The steps an access point takes: a pass of `Run`, a submission, a
handling of a request, a status update. -/
inductive Step (env : Env) : AccessPoint × List Event → AccessPoint × List Event → Prop where
  | run (fuel : Nat) (ap : AccessPoint) (tr : List Event) (r : AccessPoint × List Event) :
      runIteration fuel env ap tr = .ok r → Step env (ap, tr) r
  | submit (ap : AccessPoint) (tr : List Event) (teams : Teams) :
      Step env (ap, tr) ((ConfigureTeamWifi ap teams).1, tr)
  | handle (fuel : Nat) (ap : AccessPoint) (tr : List Event) (teams : Teams)
      (r : AccessPoint × List Event) :
      handleTeamWifiConfiguration fuel env ap tr teams = .ok r → Step env (ap, tr) r
  | update (ap : AccessPoint) (tr : List Event) (ap1 : AccessPoint) (tr1 : List Event)
      (err : Option Error) :
      updateTeamWifiStatuses env ap tr = .ok (ap1, tr1, err) → Step env (ap, tr) (ap1, tr1)

/-! ## Reading the trace -/

def requestOf : Event → Option HttpRequest
  | .http req => some req
  | _ => none

/-- The requests handed to `client.Do`, oldest first. -/
def httpRequests (tr : List Event) : List HttpRequest := tr.filterMap requestOf

def reportOf : Event → Option Output
  | .out (.successAfter n) => some (.successAfter n)
  | .out (.stillIncorrect n) => some (.stillIncorrect n)
  | _ => none

/-- The attempt reports logged by `handleTeamWifiConfiguration`, oldest
first. -/
def attemptReports (tr : List Event) : List Output := tr.filterMap reportOf

def handledOf : Event → Option (List (Option Team))
  | .out (.teams ts) => some ts
  | _ => none

/-- The requests whose handling was started, oldest first: the line with the
teams is printed at the start of `handleTeamWifiConfiguration` and nowhere
else. -/
def handledRequests (tr : List Event) : List (List (Option Team)) := tr.filterMap handledOf

/-- The events `unifiLogin` can append to the trace. -/
def isLoginEvent : Event → Bool
  | .http (.login _ _ _) => true
  | .out .loggedIn => true
  | _ => false

/-- The events `unifiConfigureWifi` can append to the trace. -/
def isWlanPushEvent : Event → Bool
  | .http (.putWlanconf _ _ _ _ _) => true
  | .out (.configuredWlan _) => true
  | .out (.wlanJson _ _ _) => true
  | .out (.wlanResponseBody _) => true
  | _ => false

/-- The events `unifiGetConfiguredSsids` can append to the trace. -/
def isStatusReadEvent : Event → Bool
  | .http (.getWlanconf _) => true
  | _ => false

/-- The number of status reads sent so far. -/
def statusReadCount (tr : List Event) : Nat := tr.countP isStatusReadEvent

/-- The events `updateTeamWifiStatuses` can append to the trace. -/
def isUpdateEvent (e : Event) : Bool := isLoginEvent e || isStatusReadEvent e

/-- Every event except the line printed at the start of
`handleTeamWifiConfiguration`. -/
def isRetryEvent (e : Event) : Bool := (handledOf e).isNone

/-- The trace `tr1` is `tr` followed by events that all satisfy `P`. -/
def Extends (P : Event → Bool) (tr tr1 : List Event) : Prop :=
  ∃ ext, tr1 = tr ++ ext ∧ ∀ e ∈ ext, P e = true

/-! ## The requests a configuration is expected to send -/

/-- The controller accepts the request whenever it is sent. -/
def accepted (env : Env) (req : HttpRequest) : Prop :=
  env.newRequestFails req = false ∧
    ∀ tr, ∃ resp, env.roundTrip tr req = some resp ∧ resp.StatusCode = 200

/-- The wlan configuration request for a team in slot `i`. -/
def wlanRequest (unifi : UnifiClient) (i : Fin 6) (team : Team) : HttpRequest :=
  .putWlanconf unifi.unifiAddress (wlanIdsOf unifi.networkIds i)
    (networkIdsOf unifi.networkIds i) (formatInt team.Id) "bluegold"

/-- One wlan configuration request for each of the slots `l` that has a team,
in the order of `l`. -/
def wlanPushesFor (unifi : UnifiClient) (teams : Teams) : List (Fin 6) → List HttpRequest
  | [] => []
  | i :: rest =>
    match teams i with
    | none => wlanPushesFor unifi teams rest
    | some team => wlanRequest unifi i team :: wlanPushesFor unifi teams rest

/-- The network configuration request that resets slot `i`. -/
def resetRequest (unifi : UnifiClient) (i : Fin 6) : HttpRequest :=
  .putNetworkconf unifi.unifiAddress (networkIdsOf unifi.networkIds i) 0 (101 + (i.val : Int))

/-- The network configuration request for a team in slot `i`. -/
def networkRequest (unifi : UnifiClient) (i : Fin 6) (team : Team) : HttpRequest :=
  .putNetworkconf unifi.unifiAddress (networkIdsOf unifi.networkIds i)
    (team.Id.tdiv 100) (team.Id.tmod 100)

/-- For each of the slots `l` that has a team, in the order of `l`: the reset
request, then the request for the team. -/
def networkPushesFor (unifi : UnifiClient) (teams : Teams) : List (Fin 6) → List HttpRequest
  | [] => []
  | i :: rest =>
    match teams i with
    | none => networkPushesFor unifi teams rest
    | some team =>
      resetRequest unifi i :: networkRequest unifi i team :: networkPushesFor unifi teams rest

/-- The identifiers read show, in every slot with a desired team, that team's
id. -/
def ssidsMatch (teams : Teams) (output : UnifiConfiguredSsids) : Bool :=
  (List.finRange 6).all fun i =>
    match teams i with
    | none => true
    | some team => decide ((Atoi (ssidOf output i)).1 = team.Id)

/-! ## Sample values -/

def sampleIds : UnifiIds :=
  ⟨"net1", "net2", "net3", "net4", "net5", "net6",
    "wlan1", "wlan2", "wlan3", "wlan4", "wlan5", "wlan6"⟩

def sampleUnifi : UnifiClient := ⟨"10.0.100.2", "admin", "secret", sampleIds⟩

def teamsA : Teams := ![some ⟨100⟩, none, none, none, none, none]

def teamsB : Teams := ![some ⟨100⟩, some ⟨200⟩, none, none, none, none]

def teamsC : Teams := ![some ⟨254⟩, none, none, some ⟨1678⟩, none, none]

/-- A controller that cannot be reached: every `client.Do` is a transport
error. -/
def envDown : Env := ⟨fun _ => false, fun _ _ => none, fun _ => none⟩

/-- An access point as `SetSettings` leaves the zero value. -/
def apFresh : AccessPoint := SetSettings ⟨none, none, fun _ => ⟨0, false⟩, false⟩ (some sampleUnifi)

/-- An access point that shows the teams of `teamsC` and has `teamsA`,
`teamsB`, `teamsC` queued. -/
def apQueued : AccessPoint :=
  ⟨some sampleUnifi, some ⟨10, [teamsA, teamsB, teamsC]⟩,
    ![⟨254, false⟩, ⟨0, false⟩, ⟨0, false⟩, ⟨1678, false⟩, ⟨0, false⟩, ⟨0, false⟩], true⟩

/-- A controller that accepts every request and reports one wireless network,
that of slot 0, under a 19-digit name one above the largest `int`. -/
def envHuge : Env :=
  ⟨fun _ => false, fun _ _ => some ⟨200, "", false⟩,
    fun _ => some [⟨"9223372036854775808", "wlan1"⟩]⟩

/-- A controller that accepts every request; its first two status reads
report team 254 on the wlan of slot 0, the later ones team 100. -/
def envRetry : Env :=
  ⟨fun _ => false,
    fun tr _ => some ⟨200, if statusReadCount tr < 2 then "stale" else "fresh", false⟩,
    fun body => if body = "fresh" then some [⟨"100", "wlan1"⟩] else some [⟨"254", "wlan1"⟩]⟩

/-- The `TeamId` of a slot after an operation that returns an access point
first. -/
def teamIdAfter {α : Type} (r : Except Fault (AccessPoint × α)) (i : Fin 6) : Option Int :=
  match r with
  | .ok (ap, _) => some (ap.TeamWifiStatuses i).TeamId
  | .error _ => none

/-- Submissions one after the other with nothing draining the queue: the
access point afterwards and the result of each submission. -/
def submitAll : AccessPoint → List Teams → AccessPoint × List (Option Error)
  | ap, [] => (ap, [])
  | ap, teams :: rest =>
    let r := ConfigureTeamWifi ap teams
    let rs := submitAll r.1 rest
    (rs.1, r.2 :: rs.2)

/-! ## Convergence check -/

theorem configIsCorrectLoop_iff (ap : AccessPoint) (teams : Teams) (l : List (Fin 6)) :
    configIsCorrectLoop ap teams l = true ↔
      ∀ i ∈ l, ∀ t, teams i = some t → (ap.TeamWifiStatuses i).TeamId = t.Id := by
  induction l with
  | nil => simp [configIsCorrectLoop]
  | cons i rest ih =>
    cases h : teams i with
    | none => simp [configIsCorrectLoop, h, ih]
    | some t =>
      by_cases hid : (ap.TeamWifiStatuses i).TeamId = t.Id
      · simp [configIsCorrectLoop, h, hid, ih]
      · simp [configIsCorrectLoop, h, hid]

theorem configIsCorrect_iff (ap : AccessPoint) (teams : Teams) :
    configIsCorrectForTeams ap teams = true ↔
      ap.initialStatusesFetched = true ∧
        ∀ i : Fin 6, ∀ t, teams i = some t → (ap.TeamWifiStatuses i).TeamId = t.Id := by
  unfold configIsCorrectForTeams
  cases hf : ap.initialStatusesFetched
  · simp
  · simp [configIsCorrectLoop_iff]

/-- C1: `configIsCorrectForTeams` is true exactly when the initial statuses
were fetched and every slot with a desired team shows that team's id; so it is
false whenever the statuses were not fetched, the status of a slot without a
desired team does not matter, and desired `[100, -, -, -, -, -]` against
observed `[100, 777, 0, 0, 0, 0]` is converged. -/
theorem c1_convergence_check (ap : AccessPoint) (teams : Teams) :
    (configIsCorrectForTeams ap teams = true ↔
      ap.initialStatusesFetched = true ∧
        ∀ i : Fin 6, ∀ t, teams i = some t → (ap.TeamWifiStatuses i).TeamId = t.Id) ∧
    (ap.initialStatusesFetched = false → configIsCorrectForTeams ap teams = false) ∧
    (∀ ap1 : AccessPoint, ap1.initialStatusesFetched = ap.initialStatusesFetched →
      (∀ i : Fin 6, teams i ≠ none →
        (ap1.TeamWifiStatuses i).TeamId = (ap.TeamWifiStatuses i).TeamId) →
      configIsCorrectForTeams ap1 teams = configIsCorrectForTeams ap teams) ∧
    configIsCorrectForTeams
      ⟨none, none, ![⟨100, false⟩, ⟨777, false⟩, ⟨0, false⟩, ⟨0, false⟩, ⟨0, false⟩, ⟨0, false⟩], true⟩
      ![some ⟨100⟩, none, none, none, none, none] = true := by
  refine ⟨configIsCorrect_iff ap teams, ?_, ?_, by decide⟩
  · intro hf
    simp [configIsCorrectForTeams, hf]
  · intro ap1 hf hs
    rw [Bool.eq_iff_iff, configIsCorrect_iff, configIsCorrect_iff, hf]
    constructor
    · rintro ⟨h1, h2⟩
      exact ⟨h1, fun i t ht => by rw [← hs i (by simp [ht])]; exact h2 i t ht⟩
    · rintro ⟨h1, h2⟩
      exact ⟨h1, fun i t ht => by rw [hs i (by simp [ht])]; exact h2 i t ht⟩

/-- Witness for C1 on an access point whose statuses were never fetched and
the all-empty assignment. -/
theorem c1_convergence_check_witness :
    configIsCorrectForTeams ⟨none, none, fun _ => ⟨0, false⟩, false⟩ (fun _ => none) = false :=
  (c1_convergence_check ⟨none, none, fun _ => ⟨0, false⟩, false⟩ (fun _ => none)).2.1 rfl

/-! ## What each operation appends to the trace -/

theorem Extends.refl (P : Event → Bool) (tr : List Event) : Extends P tr tr :=
  ⟨[], by simp, by simp⟩

theorem Extends.append {P : Event → Bool} {tr tr1 : List Event} (h : Extends P tr tr1)
    (l : List Event) (hl : ∀ e ∈ l, P e = true) : Extends P tr (tr1 ++ l) := by
  obtain ⟨ext, rfl, hc⟩ := h
  refine ⟨ext ++ l, by simp, ?_⟩
  intro e he
  rcases List.mem_append.1 he with he | he
  · exact hc e he
  · exact hl e he

theorem Extends.trans {P : Event → Bool} {tr tr1 tr2 : List Event} (h1 : Extends P tr tr1)
    (h2 : Extends P tr1 tr2) : Extends P tr tr2 := by
  obtain ⟨ext2, rfl, hc2⟩ := h2
  exact h1.append ext2 hc2

theorem Extends.mono {P Q : Event → Bool} {tr tr1 : List Event} (h : Extends P tr tr1)
    (hPQ : ∀ e, P e = true → Q e = true) : Extends Q tr tr1 := by
  obtain ⟨ext, rfl, hc⟩ := h
  exact ⟨ext, rfl, fun e he => hPQ e (hc e he)⟩

theorem Extends.filterMap_eq {P : Event → Bool} {tr tr1 : List Event} {β : Type}
    (h : Extends P tr tr1) (f : Event → Option β) (hf : ∀ e, P e = true → f e = none) :
    tr1.filterMap f = tr.filterMap f := by
  obtain ⟨ext, rfl, hc⟩ := h
  have : ext.filterMap f = [] := by
    rw [List.filterMap_eq_nil_iff]
    exact fun e he => hf e (hc e he)
  simp [this]

theorem unifiLogin_trace (env : Env) (unifi : UnifiClient) (tr : List Event) :
    Extends isLoginEvent tr (unifiLogin env unifi tr).1 := by
  unfold unifiLogin
  dsimp only
  split_ifs
  · exact Extends.refl _ _
  · split
    · exact (Extends.refl _ _).append _ (by simp [isLoginEvent])
    · split_ifs
      · exact (Extends.refl _ _).append _ (by simp [isLoginEvent])
      · exact (Extends.refl _ _).append _ (by simp [isLoginEvent])

theorem configureWlan_trace (env : Env) (unifi : UnifiClient) (tr : List Event) (team : Team)
    (networkId wifiId : String) :
    Extends isWlanPushEvent tr (configureWlan env unifi tr team networkId wifiId).1 := by
  have h0 : Extends isWlanPushEvent tr
      (tr ++ [.out (.wlanJson networkId (formatInt team.Id) "bluegold")]) :=
    (Extends.refl _ _).append _ (by simp [isWlanPushEvent])
  unfold configureWlan
  dsimp only
  split_ifs
  · exact h0
  · split
    · exact h0.append _ (by simp [isWlanPushEvent])
    · split_ifs
      · exact h0.append _ (by simp [isWlanPushEvent])
      · exact h0.append _ (by simp [isWlanPushEvent])

theorem unifiConfigureWifiLoop_trace (env : Env) (unifi : UnifiClient) (teams : Teams)
    (l : List (Fin 6)) (tr : List Event) :
    Extends isWlanPushEvent tr (unifiConfigureWifiLoop env unifi teams l tr).1 := by
  induction l generalizing tr with
  | nil => exact Extends.refl _ _
  | cons i rest ih =>
    unfold unifiConfigureWifiLoop
    cases ht : teams i with
    | none => exact ih tr
    | some team =>
      have h1 := ((Extends.refl isWlanPushEvent tr).append [.out (.configuredWlan team.Id)]
        (by simp [isWlanPushEvent])).trans (configureWlan_trace env unifi
          (tr ++ [.out (.configuredWlan team.Id)])
          team (networkIdsOf unifi.networkIds i) (wlanIdsOf unifi.networkIds i))
      dsimp only
      split
      · next tr1 err hw =>
        rw [hw] at h1
        exact h1
      · next tr1 hw =>
        rw [hw] at h1
        exact h1.trans (ih tr1)

theorem unifiConfigureWifi_trace (env : Env) (unifi : UnifiClient) (tr : List Event)
    (teams : Teams) :
    Extends isWlanPushEvent tr (unifiConfigureWifi env unifi tr teams).1 :=
  unifiConfigureWifiLoop_trace env unifi teams _ tr

theorem unifiGetConfiguredSsids_trace (env : Env) (unifi : UnifiClient) (tr : List Event) :
    Extends isStatusReadEvent tr (unifiGetConfiguredSsids env unifi tr).1 := by
  unfold unifiGetConfiguredSsids
  dsimp only
  split_ifs
  · exact Extends.refl _ _
  · split
    · exact (Extends.refl _ _).append _ (by simp [isStatusReadEvent])
    · split_ifs
      · exact (Extends.refl _ _).append _ (by simp [isStatusReadEvent])
      · exact (Extends.refl _ _).append _ (by simp [isStatusReadEvent])
      · split
        · exact (Extends.refl _ _).append _ (by simp [isStatusReadEvent])
        · exact (Extends.refl _ _).append _ (by simp [isStatusReadEvent])

theorem markFetched_frame (ap : AccessPoint) :
    (markFetched ap).unifi = ap.unifi ∧
    (markFetched ap).configRequestChan = ap.configRequestChan ∧
    (markFetched ap).TeamWifiStatuses = ap.TeamWifiStatuses ∧
    (markFetched ap).initialStatusesFetched = true := by
  unfold markFetched
  cases h : ap.initialStatusesFetched <;> simp [h]

theorem storeSsids_frame (ap : AccessPoint) (output : UnifiConfiguredSsids) :
    (storeSsids ap output).unifi = ap.unifi ∧
    (storeSsids ap output).configRequestChan = ap.configRequestChan ∧
    (storeSsids ap output).initialStatusesFetched = ap.initialStatusesFetched := by
  simp [storeSsids, setTeamId]

theorem storeSsids_status (ap : AccessPoint) (output : UnifiConfiguredSsids) (i : Fin 6) :
    (storeSsids ap output).TeamWifiStatuses i =
      ⟨(Atoi (ssidOf output i)).1, (ap.TeamWifiStatuses i).RadioLinked⟩ := by
  fin_cases i
  all_goals simp [storeSsids, setTeamId, ssidOf, Function.update]
  rfl

theorem updateTeamWifiStatuses_frame (env : Env) (ap ap1 : AccessPoint) (tr tr1 : List Event)
    (err : Option Error) (h : updateTeamWifiStatuses env ap tr = .ok (ap1, tr1, err)) :
    ap1.unifi = ap.unifi ∧ ap1.configRequestChan = ap.configRequestChan ∧
    Extends isUpdateEvent tr tr1 ∧
    (err ≠ none → ap1 = ap) ∧ (err = none → ap1.initialStatusesFetched = true) := by
  unfold updateTeamWifiStatuses at h
  cases hu : ap.unifi with
  | none => simp [hu] at h
  | some unifi =>
    simp only [hu] at h
    have hl := (unifiLogin_trace env unifi tr).mono (Q := isUpdateEvent)
      (fun e he => by simp [isUpdateEvent, he])
    rcases hlogin : unifiLogin env unifi tr with ⟨t1, _ | e1⟩
    · rw [hlogin] at h hl
      simp only at h hl
      have hg := (unifiGetConfiguredSsids_trace env unifi t1).mono (Q := isUpdateEvent)
        (fun e he => by simp [isUpdateEvent, he])
      rcases hget : unifiGetConfiguredSsids env unifi t1 with ⟨t2, e2 | output⟩
      · rw [hget] at h hg
        simp only [Except.ok.injEq, Prod.mk.injEq] at h
        obtain ⟨rfl, rfl, rfl⟩ := h
        exact ⟨hu, rfl, hl.trans hg, fun _ => rfl, fun h => by simp at h⟩
      · rw [hget] at h hg
        simp only [Except.ok.injEq, Prod.mk.injEq] at h
        obtain ⟨rfl, rfl, rfl⟩ := h
        refine ⟨?_, ?_, hl.trans hg, fun h => by simp at h, fun _ => ?_⟩
        · rw [(markFetched_frame _).1, (storeSsids_frame _ _).1, hu]
        · rw [(markFetched_frame _).2.1, (storeSsids_frame _ _).2.1]
        · exact (markFetched_frame _).2.2.2
    · rw [hlogin] at h hl
      simp only [Except.ok.injEq, Prod.mk.injEq] at h
      obtain ⟨rfl, rfl, rfl⟩ := h
      exact ⟨hu, rfl, hl, fun _ => rfl, fun h => by simp at h⟩

theorem updateTeamWifiStatuses_fetched (env : Env) (ap ap1 : AccessPoint) (tr tr1 : List Event)
    (err : Option Error) (h : updateTeamWifiStatuses env ap tr = .ok (ap1, tr1, err))
    (hf : ap.initialStatusesFetched = true) : ap1.initialStatusesFetched = true := by
  obtain ⟨_, _, _, h1, h2⟩ := updateTeamWifiStatuses_frame env ap ap1 tr tr1 err h
  cases err with
  | none => exact h2 rfl
  | some e => rw [h1 (by simp)]; exact hf

theorem isRetryEvent_of_login (e : Event) (h : isLoginEvent e = true) : isRetryEvent e = true := by
  rcases e with r | s | o
  · rfl
  · rfl
  · cases o <;> simp_all [isLoginEvent, isRetryEvent, handledOf]

theorem isRetryEvent_of_wlanPush (e : Event) (h : isWlanPushEvent e = true) :
    isRetryEvent e = true := by
  rcases e with r | s | o
  · rfl
  · rfl
  · cases o <;> simp_all [isWlanPushEvent, isRetryEvent, handledOf]

theorem isRetryEvent_of_update (e : Event) (h : isUpdateEvent e = true) :
    isRetryEvent e = true := by
  rcases e with r | s | o
  · rfl
  · rfl
  · cases o <;> simp_all [isUpdateEvent, isLoginEvent, isStatusReadEvent, isRetryEvent, handledOf]

theorem configAttempt_frame (env : Env) (ap ap1 : AccessPoint) (tr tr1 : List Event)
    (teams : Teams) (attemptCount : Int) (done : Bool)
    (h : configAttempt env ap tr teams attemptCount = .ok (ap1, tr1, done)) :
    ap1.unifi = ap.unifi ∧ ap1.configRequestChan = ap.configRequestChan ∧
    Extends isRetryEvent tr tr1 ∧
    (ap.initialStatusesFetched = true → ap1.initialStatusesFetched = true) ∧
    (done = true → configIsCorrectForTeams ap1 teams = true) := by
  unfold configAttempt at h
  cases hu : ap.unifi with
  | none => simp [hu] at h
  | some unifi =>
    simp only [hu] at h
    have hl := (unifiLogin_trace env unifi tr).mono isRetryEvent_of_login
    rcases hlogin : unifiLogin env unifi tr with ⟨t1, _ | e1⟩
    · rw [hlogin] at h hl
      simp only at h hl
      have hc := (unifiConfigureWifi_trace env unifi t1 teams).mono isRetryEvent_of_wlanPush
      generalize htr3 : (match unifiConfigureWifi env unifi t1 teams with
        | (tr2, some err2) => tr2 ++ [Event.out (Output.errorConfiguringWifi err2)]
        | (tr2, none) => tr2) ++ [Event.sleep accessPointConfigRetryIntervalSec] = tr3 at h
      have h3 : Extends isRetryEvent tr tr3 := by
        rw [← htr3]
        rcases hcw : unifiConfigureWifi env unifi t1 teams with ⟨t2, _ | e2⟩
        · rw [hcw] at hc
          exact (hl.trans hc).append [Event.sleep accessPointConfigRetryIntervalSec]
            (by simp [isRetryEvent, handledOf])
        · rw [hcw] at hc
          exact ((hl.trans hc).append [Event.out (Output.errorConfiguringWifi e2)]
            (by simp [isRetryEvent, handledOf])).append
            [Event.sleep accessPointConfigRetryIntervalSec] (by simp [isRetryEvent, handledOf])
      cases hupd : updateTeamWifiStatuses env ap tr3 with
      | error f => simp [hupd] at h
      | ok r =>
        obtain ⟨a, t4, e3⟩ := r
        obtain ⟨f1, f2, f3, _, _⟩ := updateTeamWifiStatuses_frame env ap a tr3 t4 e3 hupd
        have f4 := updateTeamWifiStatuses_fetched env ap a tr3 t4 e3 hupd
        rw [hupd] at h
        simp only at h
        split_ifs at h with hok
        · simp only [Except.ok.injEq, Prod.mk.injEq] at h
          obtain ⟨rfl, rfl, rfl⟩ := h
          exact ⟨by rw [f1, hu], f2,
            (h3.trans (f3.mono isRetryEvent_of_update)).append _ (by simp [isRetryEvent, handledOf]),
            f4, fun _ => hok.2⟩
        · simp only [Except.ok.injEq, Prod.mk.injEq] at h
          obtain ⟨rfl, rfl, rfl⟩ := h
          exact ⟨by rw [f1, hu], f2,
            (h3.trans (f3.mono isRetryEvent_of_update)).append _ (by simp [isRetryEvent, handledOf]),
            f4, fun h => by simp at h⟩
    · rw [hlogin] at h hl
      simp only [Except.ok.injEq, Prod.mk.injEq] at h
      obtain ⟨rfl, rfl, rfl⟩ := h
      exact ⟨hu, rfl, (hl.append _ (by simp [isRetryEvent, handledOf])).append _
        (by simp [isRetryEvent, handledOf]), fun h => h, fun h => by simp at h⟩

theorem handleLoop_frame (env : Env) (teams : Teams) (fuel : Nat) (ap ap1 : AccessPoint)
    (tr tr1 : List Event) (attemptCount : Int)
    (h : handleLoop env teams fuel ap tr attemptCount = .ok (ap1, tr1)) :
    ap1.unifi = ap.unifi ∧ ap1.configRequestChan = ap.configRequestChan ∧
    Extends isRetryEvent tr tr1 ∧
    (ap.initialStatusesFetched = true → ap1.initialStatusesFetched = true) ∧
    configIsCorrectForTeams ap1 teams = true := by
  induction fuel generalizing ap tr attemptCount with
  | zero => simp [handleLoop] at h
  | succ fuel ih =>
    unfold handleLoop at h
    cases hatt : configAttempt env ap tr teams attemptCount with
    | error f => simp [hatt] at h
    | ok r =>
      obtain ⟨a, t, done⟩ := r
      obtain ⟨f1, f2, f3, f4, f5⟩ := configAttempt_frame env ap a tr t teams attemptCount done hatt
      rw [hatt] at h
      cases done with
      | true =>
        simp only [Except.ok.injEq, Prod.mk.injEq] at h
        obtain ⟨rfl, rfl⟩ := h
        exact ⟨f1, f2, f3, f4, f5 rfl⟩
      | false =>
        simp only at h
        obtain ⟨g1, g2, g3, g4, g5⟩ := ih a t _ h
        exact ⟨g1.trans f1, g2.trans f2, f3.trans g3, fun hf => g4 (f4 hf), g5⟩

theorem handleTeamWifiConfiguration_frame (fuel : Nat) (env : Env) (ap ap1 : AccessPoint)
    (tr tr1 : List Event) (teams : Teams)
    (h : handleTeamWifiConfiguration fuel env ap tr teams = .ok (ap1, tr1)) :
    ap1.unifi = ap.unifi ∧ ap1.configRequestChan = ap.configRequestChan ∧
    Extends isRetryEvent (tr ++ [.out (.teams (List.ofFn teams))]) tr1 ∧
    (ap.initialStatusesFetched = true → ap1.initialStatusesFetched = true) ∧
    configIsCorrectForTeams ap1 teams = true := by
  unfold handleTeamWifiConfiguration at h
  dsimp only at h
  split_ifs at h with hc
  · simp only [Except.ok.injEq, Prod.mk.injEq] at h
    obtain ⟨rfl, rfl⟩ := h
    exact ⟨rfl, rfl, Extends.refl _ _, fun h => h, hc⟩
  · exact handleLoop_frame env teams fuel ap ap1 _ tr1 1 h

/-! ## The request queue -/

theorem drainExtra_all (request : Teams) (buf : List Teams) :
    drainExtra buf.length request buf = .ok ((request :: buf).getLast (by simp), []) := by
  induction buf generalizing request with
  | nil => simp [drainExtra]
  | cons next buf ih => simp [drainExtra, ih]

theorem handledRequests_of_handle (fuel : Nat) (env : Env) (ap ap1 : AccessPoint)
    (tr tr1 : List Event) (teams : Teams)
    (h : handleTeamWifiConfiguration fuel env ap tr teams = .ok (ap1, tr1)) :
    handledRequests tr1 = handledRequests tr ++ [List.ofFn teams] := by
  obtain ⟨_, _, hext, _, _⟩ := handleTeamWifiConfiguration_frame fuel env ap ap1 tr tr1 teams h
  unfold handledRequests
  rw [hext.filterMap_eq handledOf (fun e he => by simpa [isRetryEvent] using he)]
  simp [handledOf]

/-- C2: when the loop of `Run` wakes with requests `r1..rn` buffered (any
`n ≥ 1`, in particular up to the capacity 10) and nothing is sent meanwhile,
the pass is exactly one call of `handleTeamWifiConfiguration`, on the last
request `rn` and with the queue emptied; when that call returns, the queue is
still empty and `rn` is the only request whose handling was started. -/
theorem c2_run_coalesces (fuel : Nat) (env : Env) (ap : AccessPoint) (tr : List Event)
    (ch : Chan) (reqs : List Teams) (hne : reqs ≠ [])
    (hch : ap.configRequestChan = some ch) (hbuf : ch.buf = reqs) :
    runIteration fuel env ap tr =
      handleTeamWifiConfiguration fuel env
        { ap with configRequestChan := some { ch with buf := [] } } tr (reqs.getLast hne) ∧
    ∀ ap1 tr1, runIteration fuel env ap tr = .ok (ap1, tr1) →
      ap1.configRequestChan = some { ch with buf := [] } ∧
      handledRequests tr1 = handledRequests tr ++ [List.ofFn (reqs.getLast hne)] := by
  have heq : runIteration fuel env ap tr =
      handleTeamWifiConfiguration fuel env
        { ap with configRequestChan := some { ch with buf := [] } } tr (reqs.getLast hne) := by
    cases reqs with
    | nil => exact absurd rfl hne
    | cons request buf =>
      unfold runIteration
      simp only [hch, hbuf, drainExtra_all]
  refine ⟨heq, ?_⟩
  intro ap1 tr1 h
  rw [heq] at h
  exact ⟨(handleTeamWifiConfiguration_frame fuel env _ ap1 tr tr1 _ h).2.1,
    handledRequests_of_handle fuel env _ ap1 tr tr1 _ h⟩

/-- Witness for C2: with A, B, C queued on an access point that already shows
the teams of C, one pass of `Run` handles C alone and returns. -/
theorem c2_run_coalesces_witness :
    runIteration 0 envDown apQueued [] =
      .ok ({ apQueued with configRequestChan := some ⟨10, []⟩ },
        [.out (.teams [some ⟨254⟩, none, none, some ⟨1678⟩, none, none])]) :=
  (c2_run_coalesces 0 envDown apQueued [] ⟨10, [teamsA, teamsB, teamsC]⟩
    [teamsA, teamsB, teamsC] (by simp) rfl rfl).1.trans rfl

theorem submitAll_eleven (ap : AccessPoint) (ts : List Teams) (hlen : ts.length = 11)
    (hch : ap.configRequestChan = some ⟨accessPointRequestBufferSize, []⟩) :
    (submitAll ap ts).2 = List.replicate 10 none ++ [some Error.bufferFull] := by
  match ts, hlen with
  | [t1, t2, t3, t4, t5, t6, t7, t8, t9, t10, t11], _ =>
    simp [submitAll, ConfigureTeamWifi, hch, accessPointRequestBufferSize, List.replicate]

/-- C3: on a queue of the capacity `SetSettings` gives it (10),
`ConfigureTeamWifi` returns nil exactly when fewer than 10 requests are
buffered, and then appends the request at the tail; otherwise it returns the
buffer-full error and changes nothing.  `SetSettings` on an access point
without a queue creates an empty queue of capacity 10, on which the first 10
of 11 submissions succeed and the 11th is rejected. -/
theorem c3_queue_bound (ap : AccessPoint) (ch : Chan) (teams : Teams)
    (hch : ap.configRequestChan = some ch) (hcap : ch.cap = accessPointRequestBufferSize) :
    ((ConfigureTeamWifi ap teams).2 = none ↔ ch.buf.length < 10) ∧
    (ch.buf.length < 10 → ConfigureTeamWifi ap teams =
      ({ ap with configRequestChan := some { ch with buf := ch.buf ++ [teams] } }, none)) ∧
    (¬ ch.buf.length < 10 → ConfigureTeamWifi ap teams = (ap, some .bufferFull)) ∧
    (∀ (ap0 : AccessPoint) (unifi : Option UnifiClient), ap0.configRequestChan = none →
      (SetSettings ap0 unifi).configRequestChan = some ⟨10, []⟩ ∧
      ∀ ts : List Teams, ts.length = 11 →
        (submitAll (SetSettings ap0 unifi) ts).2 = List.replicate 10 none ++ [some .bufferFull]) := by
  have hcap10 : ch.cap = 10 := hcap
  refine ⟨?_, ?_, ?_, ?_⟩
  · unfold ConfigureTeamWifi
    rw [hch]
    by_cases hlt : ch.buf.length < 10 <;> simp [hcap10, hlt]
  · intro hlt
    unfold ConfigureTeamWifi
    rw [hch]
    simp [hcap10, hlt]
  · intro hlt
    unfold ConfigureTeamWifi
    rw [hch]
    simp [hcap10, hlt]
  · intro ap0 unifi h0
    have hset : (SetSettings ap0 unifi).configRequestChan = some ⟨10, []⟩ := by
      simp [SetSettings, h0, accessPointRequestBufferSize]
    exact ⟨hset, fun ts hts => submitAll_eleven _ ts hts hset⟩

/-- Witness for C3: the queue of `apFresh` holding ten requests rejects the
next one. -/
theorem c3_queue_bound_witness :
    ConfigureTeamWifi
        { apFresh with configRequestChan := some ⟨10, List.replicate 10 teamsA⟩ } teamsB =
      ({ apFresh with configRequestChan := some ⟨10, List.replicate 10 teamsA⟩ },
        some .bufferFull) :=
  (c3_queue_bound { apFresh with configRequestChan := some ⟨10, List.replicate 10 teamsA⟩ }
    ⟨10, List.replicate 10 teamsA⟩ teamsB rfl rfl).2.2.1 (by simp)

/-- C4: when the configuration is already correct for the desired teams,
`handleTeamWifiConfiguration` returns at once: the access point (statuses and
fetched flag included) is unchanged, the only event is the printed line, and
no request is sent to the controller. -/
theorem c4_idempotent_noop (fuel : Nat) (env : Env) (ap : AccessPoint) (tr : List Event)
    (teams : Teams) (h : configIsCorrectForTeams ap teams = true) :
    handleTeamWifiConfiguration fuel env ap tr teams =
      .ok (ap, tr ++ [.out (.teams (List.ofFn teams))]) ∧
    httpRequests (tr ++ [.out (.teams (List.ofFn teams))]) = httpRequests tr := by
  constructor
  · simp [handleTeamWifiConfiguration, h]
  · simp [httpRequests, requestOf]

/-- Witness for C4: an access point on which `teamsA` is already configured,
against the unreachable controller and without fuel. -/
theorem c4_idempotent_noop_witness :
    handleTeamWifiConfiguration 0 envDown
        ⟨some sampleUnifi, none, fun _ => ⟨100, false⟩, true⟩ [] teamsA =
      .ok (⟨some sampleUnifi, none, fun _ => ⟨100, false⟩, true⟩,
        [] ++ [.out (.teams (List.ofFn teamsA))]) :=
  (c4_idempotent_noop 0 envDown ⟨some sampleUnifi, none, fun _ => ⟨100, false⟩, true⟩ []
    teamsA (by decide)).1

/-! ## The status cache -/

theorem runIteration_fetched (fuel : Nat) (env : Env) (ap ap1 : AccessPoint)
    (tr tr1 : List Event) (h : runIteration fuel env ap tr = .ok (ap1, tr1))
    (hf : ap.initialStatusesFetched = true) : ap1.initialStatusesFetched = true := by
  have htimer : ∀ r : Except Fault (AccessPoint × List Event × Option Error),
      r = updateTeamWifiStatuses env ap (tr ++ [.sleep accessPointPollPeriodSec]) →
      (match r with
        | .error f => (.error f : Except Fault (AccessPoint × List Event))
        | .ok (a, t, _) => .ok (a, t)) = .ok (ap1, tr1) →
      ap1.initialStatusesFetched = true := by
    intro r hr h
    cases r with
    | error f => simp at h
    | ok r =>
      obtain ⟨a, t, e⟩ := r
      simp only [Except.ok.injEq, Prod.mk.injEq] at h
      obtain ⟨rfl, rfl⟩ := h
      exact updateTeamWifiStatuses_fetched env ap a _ t e hr.symm hf
  unfold runIteration at h
  dsimp only at h
  cases hch : ap.configRequestChan with
  | none =>
    rw [hch] at h
    exact htimer _ rfl h
  | some ch =>
    rw [hch] at h
    dsimp only at h
    cases hbuf : ch.buf with
    | nil =>
      rw [hbuf] at h
      exact htimer _ rfl h
    | cons request buf =>
      rw [hbuf] at h
      dsimp only at h
      rw [drainExtra_all] at h
      exact (handleTeamWifiConfiguration_frame fuel env _ ap1 tr tr1 _ h).2.2.2.1 hf

theorem ConfigureTeamWifi_fetched (ap : AccessPoint) (teams : Teams) :
    (ConfigureTeamWifi ap teams).1.initialStatusesFetched = ap.initialStatusesFetched := by
  unfold ConfigureTeamWifi
  split
  · rfl
  · split_ifs <;> rfl

theorem step_fetched (env : Env) (s s1 : AccessPoint × List Event) (h : Step env s s1)
    (hf : s.1.initialStatusesFetched = true) : s1.1.initialStatusesFetched = true := by
  cases h with
  | run fuel ap tr _ hr => exact runIteration_fetched fuel env ap s1.1 tr s1.2 hr hf
  | submit ap tr teams => simpa [ConfigureTeamWifi_fetched] using hf
  | handle fuel ap tr teams _ hr =>
    exact (handleTeamWifiConfiguration_frame fuel env ap s1.1 tr s1.2 teams hr).2.2.2.1 hf
  | update ap tr ap1 tr1 err hr => exact updateTeamWifiStatuses_fetched env ap ap1 tr tr1 err hr hf

/-- C6: a failing `updateTeamWifiStatuses` (a failed login, or a failed status
read after a login) returns an error and leaves the access point, hence all
six statuses and the fetched flag, as it was; a successful one leaves the flag
true; and the flag, once true, is true after any sequence of passes of `Run`,
submissions, request handlings and status updates. -/
theorem c6_status_cache (env : Env) :
    (∀ ap tr ap1 tr1 e, updateTeamWifiStatuses env ap tr = .ok (ap1, tr1, some e) →
      ap1.TeamWifiStatuses = ap.TeamWifiStatuses ∧
      ap1.initialStatusesFetched = ap.initialStatusesFetched) ∧
    (∀ ap tr ap1 tr1, updateTeamWifiStatuses env ap tr = .ok (ap1, tr1, none) →
      ap1.initialStatusesFetched = true) ∧
    (∀ ap unifi tr, ap.unifi = some unifi →
      ((unifiLogin env unifi tr).2 ≠ none ∨
        ∃ e, (unifiGetConfiguredSsids env unifi (unifiLogin env unifi tr).1).2 = .error e) →
      ∃ tr1 e, updateTeamWifiStatuses env ap tr = .ok (ap, tr1, some e)) ∧
    (∀ s s1, Relation.ReflTransGen (Step env) s s1 →
      s.1.initialStatusesFetched = true → s1.1.initialStatusesFetched = true) := by
  refine ⟨?_, ?_, ?_, ?_⟩
  · intro ap tr ap1 tr1 e h
    have := (updateTeamWifiStatuses_frame env ap ap1 tr tr1 _ h).2.2.2.1 (by simp)
    rw [this]
    exact ⟨rfl, rfl⟩
  · intro ap tr ap1 tr1 h
    exact (updateTeamWifiStatuses_frame env ap ap1 tr tr1 _ h).2.2.2.2 rfl
  · intro ap unifi tr hu hfail
    unfold updateTeamWifiStatuses
    rw [hu]
    dsimp only
    rcases hlogin : unifiLogin env unifi tr with ⟨t1, _ | e1⟩
    · rw [hlogin] at hfail
      rcases hfail with hfail | ⟨e, hfail⟩
      · exact absurd rfl hfail
      · dsimp only at hfail ⊢
        rcases hget : unifiGetConfiguredSsids env unifi t1 with ⟨t2, e2 | output⟩
        · exact ⟨_, _, rfl⟩
        · rw [hget] at hfail
          simp at hfail
    · exact ⟨_, _, rfl⟩
  · intro s s1 hreach
    induction hreach with
    | refl => exact fun h => h
    | tail _ hstep ih => exact fun h => step_fetched env _ _ hstep (ih h)

/-- Witness for C6: against an unreachable controller the update fails and
the access point is as before. -/
theorem c6_status_cache_witness :
    ∃ tr1 e, updateTeamWifiStatuses envDown apQueued [] = .ok (apQueued, tr1, some e) :=
  (c6_status_cache envDown).2.2.1 apQueued sampleUnifi [] rfl (Or.inl (by decide))

/-! ## Parsing of the identifiers -/

theorem ParseInt_err (s : List Char) :
    ((ParseInt s).2 = some .syntaxErr → (ParseInt s).1 = 0) ∧
    ((ParseInt s).2 = some .rangeErr →
      (ParseInt s).1 = 2 ^ 63 - 1 ∨ (ParseInt s).1 = -2 ^ 63) := by
  unfold ParseInt
  cases s with
  | nil => simp
  | cons c cs =>
    dsimp only
    split
    · simp
    · split_ifs <;> simp

theorem Atoi_err (s : String) :
    ((Atoi s).2 = some .syntaxErr → (Atoi s).1 = 0) ∧
    ((Atoi s).2 = some .rangeErr → (Atoi s).1 = 2 ^ 63 - 1 ∨ (Atoi s).1 = -2 ^ 63) := by
  unfold Atoi
  dsimp only
  split_ifs
  · split
    · simp
    · split_ifs <;> (try split) <;> simp
  · exact ParseInt_err _

/-- Sample values of `strconv.Atoi`. -/
theorem Atoi_samples :
    Atoi "100" = (100, none) ∧ Atoi "" = (0, some .syntaxErr) ∧
    Atoi "12a" = (0, some .syntaxErr) ∧ Atoi "-5" = (-5, none) ∧ Atoi "+5" = (5, none) ∧
    Atoi "+" = (0, some .syntaxErr) ∧
    Atoi "9223372036854775807" = (9223372036854775807, none) ∧
    Atoi "9223372036854775808" = (9223372036854775807, some .rangeErr) ∧
    Atoi "-9223372036854775808" = (-9223372036854775808, none) ∧
    Atoi "-9223372036854775809" = (-9223372036854775808, some .rangeErr) ∧
    Atoi "99999999999999999999x" = (9223372036854775807, some .rangeErr) := by
  decide

/-- C7 (as amended): after a login and a status read that succeed,
`updateTeamWifiStatuses` returns nil and stores in every slot the value
`strconv.Atoi` returns for that slot's own identifier, whatever the other
identifiers are: 0 when the identifier is rejected with a syntax error (empty,
or with a character that is no digit), and the largest or the smallest `int`
when it is rejected with a range error. -/
theorem c7_parse_failure (env : Env) (ap : AccessPoint) (unifi : UnifiClient) (tr : List Event)
    (output : UnifiConfiguredSsids) (hu : ap.unifi = some unifi)
    (hlogin : (unifiLogin env unifi tr).2 = none)
    (hread : (unifiGetConfiguredSsids env unifi (unifiLogin env unifi tr).1).2 = .ok output) :
    ∃ ap1 tr1, updateTeamWifiStatuses env ap tr = .ok (ap1, tr1, none) ∧
      ∀ i : Fin 6,
        (ap1.TeamWifiStatuses i).TeamId = (Atoi (ssidOf output i)).1 ∧
        ((Atoi (ssidOf output i)).2 = some .syntaxErr → (ap1.TeamWifiStatuses i).TeamId = 0) ∧
        ((Atoi (ssidOf output i)).2 = some .rangeErr →
          (ap1.TeamWifiStatuses i).TeamId = 2 ^ 63 - 1 ∨
          (ap1.TeamWifiStatuses i).TeamId = -2 ^ 63) := by
  rcases hl : unifiLogin env unifi tr with ⟨t1, e1⟩
  rw [hl] at hlogin hread
  dsimp only at hlogin hread
  subst hlogin
  rcases hg : unifiGetConfiguredSsids env unifi t1 with ⟨t2, r⟩
  rw [hg] at hread
  dsimp only at hread
  subst hread
  refine ⟨markFetched (storeSsids ap output), t2, ?_, ?_⟩
  · simp [updateTeamWifiStatuses, hu, hl, hg]
  · intro i
    have hid : ((markFetched (storeSsids ap output)).TeamWifiStatuses i).TeamId =
        (Atoi (ssidOf output i)).1 := by
      rw [(markFetched_frame _).2.2.1, storeSsids_status]
    rw [hid]
    exact ⟨rfl, (Atoi_err _).1, (Atoi_err _).2⟩

/-- Witness for C7: the controller `envHuge` reports a 19-digit name for slot
0 and nothing for the other slots. -/
theorem c7_parse_failure_witness :
    ∃ ap1 tr1, updateTeamWifiStatuses envHuge apQueued [] = .ok (ap1, tr1, none) ∧
      ∀ i : Fin 6,
        (ap1.TeamWifiStatuses i).TeamId =
          (Atoi (ssidOf ⟨"9223372036854775808", "", "", "", "", ""⟩ i)).1 ∧
        ((Atoi (ssidOf ⟨"9223372036854775808", "", "", "", "", ""⟩ i)).2 = some .syntaxErr →
          (ap1.TeamWifiStatuses i).TeamId = 0) ∧
        ((Atoi (ssidOf ⟨"9223372036854775808", "", "", "", "", ""⟩ i)).2 = some .rangeErr →
          (ap1.TeamWifiStatuses i).TeamId = 2 ^ 63 - 1 ∨
          (ap1.TeamWifiStatuses i).TeamId = -2 ^ 63) :=
  c7_parse_failure envHuge apQueued sampleUnifi [] ⟨"9223372036854775808", "", "", "", "", ""⟩
    rfl (by decide) rfl

/-- Counterexample to C7: the identifier `9223372036854775808` of slot 0 is
rejected by `strconv.Atoi` (range error), the update returns nil, and the
`TeamId` stored for slot 0 is 9223372036854775807, not 0. -/
theorem c7_counterexample :
    (Atoi "9223372036854775808").2 = some .rangeErr ∧
    (unifiGetConfiguredSsids envHuge sampleUnifi (unifiLogin envHuge sampleUnifi []).1).2 =
      .ok ⟨"9223372036854775808", "", "", "", "", ""⟩ ∧
    teamIdAfter (updateTeamWifiStatuses envHuge apQueued []) 0 = some 9223372036854775807 ∧
    teamIdAfter (updateTeamWifiStatuses envHuge apQueued []) 0 ≠ some 0 := by
  refine ⟨by decide, rfl, by decide, by decide⟩

/-! ## The retry loop -/

/-- C8 (as amended): every retry cycle waits the fixed delay.  When the login
of the cycle succeeds, the cycle then calls `updateTeamWifiStatuses` right
after the delay, whether `unifiConfigureWifi` succeeded or failed (a failure
is only logged), and reports on what it read.  When the login fails, the cycle
ends after the delay with the report that the configuration is still
incorrect, without a read-back. -/
theorem c8_read_back (env : Env) (ap : AccessPoint) (unifi : UnifiClient) (tr : List Event)
    (teams : Teams) (attemptCount : Int) (hu : ap.unifi = some unifi) :
    (∀ e, (unifiLogin env unifi tr).2 = some e →
      configAttempt env ap tr teams attemptCount =
        .ok (ap, (unifiLogin env unifi tr).1 ++
          [.sleep accessPointConfigRetryIntervalSec, .out (.stillIncorrect attemptCount)], false)) ∧
    ((unifiLogin env unifi tr).2 = none →
      ∃ tr2 ap1 tr4 err3 done,
        (((unifiConfigureWifi env unifi (unifiLogin env unifi tr).1 teams).2 = none ∧
            tr2 = (unifiConfigureWifi env unifi (unifiLogin env unifi tr).1 teams).1) ∨
          ∃ e2, (unifiConfigureWifi env unifi (unifiLogin env unifi tr).1 teams).2 = some e2 ∧
            tr2 = (unifiConfigureWifi env unifi (unifiLogin env unifi tr).1 teams).1 ++
              [.out (.errorConfiguringWifi e2)]) ∧
        updateTeamWifiStatuses env ap (tr2 ++ [.sleep accessPointConfigRetryIntervalSec]) =
          .ok (ap1, tr4, err3) ∧
        (done = true ↔ err3 = none ∧ configIsCorrectForTeams ap1 teams = true) ∧
        configAttempt env ap tr teams attemptCount =
          .ok (ap1, tr4 ++ [.out (if done = true then .successAfter attemptCount
            else .stillIncorrect attemptCount)], done)) := by
  rcases hl : unifiLogin env unifi tr with ⟨t1, _ | e1⟩
  · refine ⟨fun e he => by simp at he, fun _ => ?_⟩
    dsimp only
    have hupd : ∀ tr3, ∃ ap1 tr4 err3, updateTeamWifiStatuses env ap tr3 = .ok (ap1, tr4, err3) := by
      intro tr3
      unfold updateTeamWifiStatuses
      rw [hu]
      dsimp only
      rcases unifiLogin env unifi tr3 with ⟨t, _ | e⟩
      · dsimp only
        rcases unifiGetConfiguredSsids env unifi t with ⟨t', e' | output⟩
        · exact ⟨_, _, _, rfl⟩
        · exact ⟨_, _, _, rfl⟩
      · exact ⟨_, _, _, rfl⟩
    rcases hc : unifiConfigureWifi env unifi t1 teams with ⟨t2, _ | e2⟩
    · obtain ⟨ap1, tr4, err3, h3⟩ := hupd (t2 ++ [.sleep accessPointConfigRetryIntervalSec])
      refine ⟨t2, ap1, tr4, err3,
        decide (err3 = none ∧ configIsCorrectForTeams ap1 teams = true), Or.inl ⟨rfl, rfl⟩, h3,
        by simp, ?_⟩
      unfold configAttempt
      simp only [hu, hl, hc, h3]
      by_cases h1 : err3 = none ∧ configIsCorrectForTeams ap1 teams = true
      · simp [h1]
      · simp [h1]
    · obtain ⟨ap1, tr4, err3, h3⟩ := hupd (t2 ++ [.out (.errorConfiguringWifi e2)] ++
        [.sleep accessPointConfigRetryIntervalSec])
      refine ⟨t2 ++ [.out (.errorConfiguringWifi e2)], ap1, tr4, err3,
        decide (err3 = none ∧ configIsCorrectForTeams ap1 teams = true),
        Or.inr ⟨e2, rfl, rfl⟩, h3, by simp, ?_⟩
      unfold configAttempt
      simp only [hu, hl, hc, h3]
      by_cases h1 : err3 = none ∧ configIsCorrectForTeams ap1 teams = true
      · simp [h1]
      · simp [h1]
  · refine ⟨fun e _ => ?_, fun h => by simp at h⟩
    unfold configAttempt
    simp [hu, hl]

/-- Witness for C8: a cycle against the unreachable controller. -/
theorem c8_read_back_witness :
    configAttempt envDown apQueued [] teamsA 1 =
      .ok (apQueued, (unifiLogin envDown sampleUnifi []).1 ++
        [.sleep accessPointConfigRetryIntervalSec, .out (.stillIncorrect 1)], false) :=
  (c8_read_back envDown apQueued sampleUnifi [] teamsA 1 rfl).1 _ rfl

/-- Counterexample to C8: against the unreachable controller the login of the
cycle fails; the cycle sends that one request, sleeps and reports, and sends
nothing after the sleep, while a call of `updateTeamWifiStatuses` after the
sleep would have sent a login request of its own. -/
theorem c8_counterexample :
    (unifiLogin envDown sampleUnifi []).2 = some .executingLoginRequest ∧
    configAttempt envDown apQueued [] teamsA 1 =
      .ok (apQueued, [.http (.login "10.0.100.2" "admin" "secret"), .sleep 5,
        .out (.stillIncorrect 1)], false) ∧
    updateTeamWifiStatuses envDown apQueued
        [.http (.login "10.0.100.2" "admin" "secret"), .sleep 5] =
      .ok (apQueued, [.http (.login "10.0.100.2" "admin" "secret"), .sleep 5,
        .http (.login "10.0.100.2" "admin" "secret")], some .executingLoginRequest) ∧
    httpRequests [.http (.login "10.0.100.2" "admin" "secret"), .sleep 5,
        .out (.stillIncorrect 1)] = [.login "10.0.100.2" "admin" "secret"] :=
  ⟨rfl, rfl, rfl, rfl⟩

/-! ## The requests of a configuration -/

theorem configureWlan_requests (env : Env) (unifi : UnifiClient) (tr : List Event) (team : Team)
    (networkId wifiId : String) :
    ((configureWlan env unifi tr team networkId wifiId).2 = none →
      httpRequests (configureWlan env unifi tr team networkId wifiId).1 =
        httpRequests tr ++
          [.putWlanconf unifi.unifiAddress wifiId networkId (formatInt team.Id) "bluegold"]) ∧
    (httpRequests (configureWlan env unifi tr team networkId wifiId).1 = httpRequests tr ∨
      httpRequests (configureWlan env unifi tr team networkId wifiId).1 =
        httpRequests tr ++
          [.putWlanconf unifi.unifiAddress wifiId networkId (formatInt team.Id) "bluegold"]) := by
  unfold configureWlan
  dsimp only
  split_ifs
  · simp [httpRequests, requestOf]
  · split
    · simp [httpRequests, requestOf]
    · split_ifs <;> simp [httpRequests, requestOf]

theorem configureWlan_accepted (env : Env) (unifi : UnifiClient) (tr : List Event) (team : Team)
    (networkId wifiId : String)
    (h : accepted env
      (.putWlanconf unifi.unifiAddress wifiId networkId (formatInt team.Id) "bluegold")) :
    (configureWlan env unifi tr team networkId wifiId).2 = none := by
  obtain ⟨h1, h2⟩ := h
  obtain ⟨resp, hr, hs⟩ :=
    h2 (tr ++ [.out (.wlanJson networkId (formatInt team.Id) "bluegold")])
  simp [configureWlan, h1, hr, hs]

theorem wlanPushesFor_append (unifi : UnifiClient) (teams : Teams) (l1 l2 : List (Fin 6)) :
    wlanPushesFor unifi teams (l1 ++ l2) =
      wlanPushesFor unifi teams l1 ++ wlanPushesFor unifi teams l2 := by
  induction l1 with
  | nil => rfl
  | cons i rest ih =>
    cases h : teams i <;> simp [wlanPushesFor, h, ih]

theorem unifiConfigureWifiLoop_requests (env : Env) (unifi : UnifiClient) (teams : Teams)
    (l : List (Fin 6)) (tr : List Event) :
    ((unifiConfigureWifiLoop env unifi teams l tr).2 = none →
      httpRequests (unifiConfigureWifiLoop env unifi teams l tr).1 =
        httpRequests tr ++ wlanPushesFor unifi teams l) ∧
    (∀ e, (unifiConfigureWifiLoop env unifi teams l tr).2 = some e →
      ∃ l1 k l2 team trk, l = l1 ++ k :: l2 ∧ teams k = some team ∧
        (configureWlan env unifi trk team (networkIdsOf unifi.networkIds k)
          (wlanIdsOf unifi.networkIds k)).2 = some e ∧
        (httpRequests (unifiConfigureWifiLoop env unifi teams l tr).1 =
            httpRequests tr ++ wlanPushesFor unifi teams l1 ∨
          httpRequests (unifiConfigureWifiLoop env unifi teams l tr).1 =
            httpRequests tr ++ wlanPushesFor unifi teams l1 ++ [wlanRequest unifi k team])) := by
  induction l generalizing tr with
  | nil =>
    refine ⟨fun _ => by simp [unifiConfigureWifiLoop, wlanPushesFor], fun e he => ?_⟩
    simp [unifiConfigureWifiLoop] at he
  | cons i rest ih =>
    cases ht : teams i with
    | none =>
      have hloop : unifiConfigureWifiLoop env unifi teams (i :: rest) tr =
          unifiConfigureWifiLoop env unifi teams rest tr := by
        simp [unifiConfigureWifiLoop, ht]
      rw [hloop]
      refine ⟨fun h => by simpa [wlanPushesFor, ht] using (ih tr).1 h, fun e he => ?_⟩
      obtain ⟨l1, k, l2, team, trk, hl, hk, herr, hreq⟩ := (ih tr).2 e he
      refine ⟨i :: l1, k, l2, team, trk, by simp [hl], hk, herr, ?_⟩
      simpa [wlanPushesFor, ht] using hreq
    | some team =>
      have hcw := configureWlan_requests env unifi (tr ++ [.out (.configuredWlan team.Id)]) team
        (networkIdsOf unifi.networkIds i) (wlanIdsOf unifi.networkIds i)
      have htr : httpRequests (tr ++ [.out (.configuredWlan team.Id)]) = httpRequests tr := by
        simp [httpRequests, requestOf]
      rw [htr] at hcw
      rcases hc : configureWlan env unifi (tr ++ [.out (.configuredWlan team.Id)]) team
        (networkIdsOf unifi.networkIds i) (wlanIdsOf unifi.networkIds i) with ⟨t1, _ | err⟩
      · have hloop : unifiConfigureWifiLoop env unifi teams (i :: rest) tr =
            unifiConfigureWifiLoop env unifi teams rest t1 := by
          simp [unifiConfigureWifiLoop, ht, hc]
        rw [hc] at hcw
        have h1 : httpRequests t1 = httpRequests tr ++ [wlanRequest unifi i team] := hcw.1 rfl
        rw [hloop]
        refine ⟨fun h => ?_, fun e he => ?_⟩
        · rw [(ih t1).1 h, h1]
          simp [wlanPushesFor, ht]
        · obtain ⟨l1, k, l2, team1, trk, hl, hk, herr, hreq⟩ := (ih t1).2 e he
          refine ⟨i :: l1, k, l2, team1, trk, by simp [hl], hk, herr, ?_⟩
          rw [h1] at hreq
          simpa [wlanPushesFor, ht] using hreq
      · have hloop : unifiConfigureWifiLoop env unifi teams (i :: rest) tr = (t1, some err) := by
          simp [unifiConfigureWifiLoop, ht, hc]
        rw [hc] at hcw
        rw [hloop]
        refine ⟨fun h => by simp at h, fun e he => ?_⟩
        simp only [Option.some.injEq] at he
        subst he
        refine ⟨[], i, rest, team, _, rfl, ht, by rw [hc], ?_⟩
        simpa [wlanPushesFor, wlanRequest] using hcw.2

/-- C9: the wlan configuration requests of `unifiConfigureWifi` are always an
initial part of the list with one request per slot that has a team, in
ascending slot order, each naming the team's id and addressed to the slot's
own wlan id and network id (so no request is ever sent for a slot without a
team).  When the function returns nil, which it does when the controller
accepts every one of these requests, the requests are the whole list.  When it
returns an error, that error is the error of the push for one slot `k` with a
team, the pushes of the earlier slots were sent, that of `k` was sent or was
not, and nothing was sent for the later slots. -/
theorem c9_wifi_pushes (env : Env) (unifi : UnifiClient) (tr : List Event) (teams : Teams) :
    (∃ pre, httpRequests (unifiConfigureWifi env unifi tr teams).1 = httpRequests tr ++ pre ∧
      pre <+: wlanPushesFor unifi teams (List.finRange 6)) ∧
    ((unifiConfigureWifi env unifi tr teams).2 = none →
      httpRequests (unifiConfigureWifi env unifi tr teams).1 =
        httpRequests tr ++ wlanPushesFor unifi teams (List.finRange 6)) ∧
    ((∀ i team, teams i = some team → accepted env (wlanRequest unifi i team)) →
      (unifiConfigureWifi env unifi tr teams).2 = none) ∧
    (∀ e, (unifiConfigureWifi env unifi tr teams).2 = some e →
      ∃ l1 k l2 team trk, List.finRange 6 = l1 ++ k :: l2 ∧ teams k = some team ∧
        (configureWlan env unifi trk team (networkIdsOf unifi.networkIds k)
          (wlanIdsOf unifi.networkIds k)).2 = some e ∧
        (httpRequests (unifiConfigureWifi env unifi tr teams).1 =
            httpRequests tr ++ wlanPushesFor unifi teams l1 ∨
          httpRequests (unifiConfigureWifi env unifi tr teams).1 =
            httpRequests tr ++ wlanPushesFor unifi teams l1 ++ [wlanRequest unifi k team])) ∧
    (∀ l : List (Fin 6), (∀ i ∈ l, teams i = none) → wlanPushesFor unifi teams l = []) ∧
    List.finRange 6 = [0, 1, 2, 3, 4, 5] := by
  have hloop : ((unifiConfigureWifi env unifi tr teams).2 = none →
      httpRequests (unifiConfigureWifi env unifi tr teams).1 =
        httpRequests tr ++ wlanPushesFor unifi teams (List.finRange 6)) ∧
    (∀ e, (unifiConfigureWifi env unifi tr teams).2 = some e →
      ∃ l1 k l2 team trk, List.finRange 6 = l1 ++ k :: l2 ∧ teams k = some team ∧
        (configureWlan env unifi trk team (networkIdsOf unifi.networkIds k)
          (wlanIdsOf unifi.networkIds k)).2 = some e ∧
        (httpRequests (unifiConfigureWifi env unifi tr teams).1 =
            httpRequests tr ++ wlanPushesFor unifi teams l1 ∨
          httpRequests (unifiConfigureWifi env unifi tr teams).1 =
            httpRequests tr ++ wlanPushesFor unifi teams l1 ++ [wlanRequest unifi k team])) :=
    unifiConfigureWifiLoop_requests env unifi teams (List.finRange 6) tr
  have hfail := hloop.2
  refine ⟨?_, hloop.1, ?_, hfail, ?_, by decide⟩
  · rcases hr : (unifiConfigureWifi env unifi tr teams).2 with _ | e
    · exact ⟨_, hloop.1 hr, List.prefix_refl _⟩
    · obtain ⟨l1, k, l2, team, trk, hl, hk, _, hreq⟩ := hfail e hr
      have hall : wlanPushesFor unifi teams (List.finRange 6) =
          wlanPushesFor unifi teams l1 ++ wlanRequest unifi k team :: wlanPushesFor unifi teams l2 := by
        rw [hl, wlanPushesFor_append]
        simp [wlanPushesFor, hk]
      rcases hreq with hreq | hreq
      · exact ⟨_, hreq, by rw [hall]; exact List.prefix_append _ _⟩
      · refine ⟨wlanPushesFor unifi teams l1 ++ [wlanRequest unifi k team], ?_, ?_⟩
        · rw [hreq, List.append_assoc]
        · rw [hall]
          exact ⟨wlanPushesFor unifi teams l2, by simp⟩
  · intro hacc
    rcases hr : (unifiConfigureWifi env unifi tr teams).2 with _ | e
    · rfl
    · obtain ⟨l1, k, l2, team, trk, _, hk, herr, _⟩ := hfail e hr
      have := configureWlan_accepted env unifi trk team (networkIdsOf unifi.networkIds k)
        (wlanIdsOf unifi.networkIds k) (hacc k team hk)
      rw [this] at herr
      exact absurd herr (by simp)
  · intro l hl
    induction l with
    | nil => rfl
    | cons i rest ih =>
      have hi : teams i = none := hl i (by simp)
      simp only [wlanPushesFor, hi]
      exact ih (fun j hj => hl j (by simp [hj]))

/-- Witness for C9: against a controller that accepts everything, `teamsC`
(slots 0 and 3) gives two requests, for slot 0 and then for slot 3. -/
theorem c9_wifi_pushes_witness :
    httpRequests (unifiConfigureWifi envHuge sampleUnifi [] teamsC).1 =
      [.putWlanconf "10.0.100.2" "wlan1" "net1" "254" "bluegold",
        .putWlanconf "10.0.100.2" "wlan4" "net4" "1678" "bluegold"] :=
  ((c9_wifi_pushes envHuge sampleUnifi [] teamsC).2.1 rfl).trans (by decide)

/-! ## Network configuration -/

theorem configureNetwork_requests (env : Env) (unifi : UnifiClient) (tr : List Event)
    (octet1 octet2 : Int) (networkId : String) :
    ((configureNetwork env unifi tr octet1 octet2 networkId).2 = none →
      httpRequests (configureNetwork env unifi tr octet1 octet2 networkId).1 =
        httpRequests tr ++ [.putNetworkconf unifi.unifiAddress networkId octet1 octet2]) ∧
    (httpRequests (configureNetwork env unifi tr octet1 octet2 networkId).1 = httpRequests tr ∨
      httpRequests (configureNetwork env unifi tr octet1 octet2 networkId).1 =
        httpRequests tr ++ [.putNetworkconf unifi.unifiAddress networkId octet1 octet2]) := by
  unfold configureNetwork
  dsimp only
  split_ifs
  · simp [httpRequests, requestOf]
  · split
    · simp [httpRequests, requestOf]
    · split_ifs <;> simp [httpRequests, requestOf]

theorem configureNetwork_accepted (env : Env) (unifi : UnifiClient) (tr : List Event)
    (octet1 octet2 : Int) (networkId : String)
    (h : accepted env (.putNetworkconf unifi.unifiAddress networkId octet1 octet2)) :
    (configureNetwork env unifi tr octet1 octet2 networkId).2 = none := by
  obtain ⟨h1, h2⟩ := h
  obtain ⟨resp, hr, hs⟩ := h2 tr
  simp [configureNetwork, h1, hr, hs]

theorem unifiConfigureNetworksLoop_requests (env : Env) (unifi : UnifiClient) (teams : Teams)
    (l : List (Fin 6)) (tr : List Event) :
    ∃ pre, httpRequests (unifiConfigureNetworksLoop env unifi teams l tr).1 =
        httpRequests tr ++ pre ∧
      pre <+: networkPushesFor unifi teams l ∧
      ((unifiConfigureNetworksLoop env unifi teams l tr).2 = none →
        pre = networkPushesFor unifi teams l) ∧
      ((∀ i ∈ l, ∀ team, teams i = some team →
          accepted env (resetRequest unifi i) ∧ accepted env (networkRequest unifi i team)) →
        (unifiConfigureNetworksLoop env unifi teams l tr).2 = none) := by
  induction l generalizing tr with
  | nil => exact ⟨[], by simp [unifiConfigureNetworksLoop, networkPushesFor]⟩
  | cons i rest ih =>
    cases ht : teams i with
    | none =>
      have hloop : unifiConfigureNetworksLoop env unifi teams (i :: rest) tr =
          unifiConfigureNetworksLoop env unifi teams rest tr := by
        simp [unifiConfigureNetworksLoop, ht]
      obtain ⟨pre, h1, h2, h3, h4⟩ := ih tr
      rw [hloop]
      refine ⟨pre, h1, by simpa [networkPushesFor, ht] using h2,
        by simpa [networkPushesFor, ht] using h3, fun hacc => h4 ?_⟩
      exact fun j hj team hteam => hacc j (by simp [hj]) team hteam
    | some team =>
      have hreset := configureNetwork_requests env unifi tr 0 (101 + (i.val : Int))
        (networkIdsOf unifi.networkIds i)
      rcases hc1 : configureNetwork env unifi tr 0 (101 + (i.val : Int))
        (networkIdsOf unifi.networkIds i) with ⟨t1, _ | err1⟩
      · rw [hc1] at hreset
        have hr1 : httpRequests t1 = httpRequests tr ++ [resetRequest unifi i] := hreset.1 rfl
        have hteam := configureNetwork_requests env unifi t1 (team.Id.tdiv 100) (team.Id.tmod 100)
          (networkIdsOf unifi.networkIds i)
        rcases hc2 : configureNetwork env unifi t1 (team.Id.tdiv 100) (team.Id.tmod 100)
          (networkIdsOf unifi.networkIds i) with ⟨t2, _ | err2⟩
        · rw [hc2] at hteam
          have hr2 : httpRequests t2 =
              httpRequests tr ++ [resetRequest unifi i, networkRequest unifi i team] := by
            rw [hteam.1 rfl, hr1]
            simp [networkRequest]
          have hloop : unifiConfigureNetworksLoop env unifi teams (i :: rest) tr =
              unifiConfigureNetworksLoop env unifi teams rest t2 := by
            simp [unifiConfigureNetworksLoop, ht, hc1, hc2]
          obtain ⟨pre, h1, h2, h3, h4⟩ := ih t2
          rw [hloop]
          refine ⟨resetRequest unifi i :: networkRequest unifi i team :: pre, ?_, ?_, ?_, ?_⟩
          · rw [h1, hr2]
            simp
          · simpa [networkPushesFor, ht, List.cons_prefix_cons] using h2
          · intro hn
            simp [networkPushesFor, ht, h3 hn]
          · exact fun hacc => h4 (fun j hj team hteam => hacc j (by simp [hj]) team hteam)
        · rw [hc2] at hteam
          have hloop : unifiConfigureNetworksLoop env unifi teams (i :: rest) tr =
              (t2, some err2) := by
            simp [unifiConfigureNetworksLoop, ht, hc1, hc2]
          rw [hloop]
          rcases hteam.2 with hq | hq
          · refine ⟨[resetRequest unifi i], by rw [hq, hr1], ?_, fun h => by simp at h, ?_⟩
            · simp [networkPushesFor, ht, List.cons_prefix_cons]
            · intro hacc
              have := configureNetwork_accepted env unifi t1 (team.Id.tdiv 100)
                (team.Id.tmod 100) (networkIdsOf unifi.networkIds i)
                (hacc i (by simp) team ht).2
              rw [hc2] at this
              exact this
          · refine ⟨[resetRequest unifi i, networkRequest unifi i team], ?_, ?_,
              fun h => by simp at h, ?_⟩
            · rw [hq, hr1]
              simp [networkRequest]
            · simp [networkPushesFor, ht, List.cons_prefix_cons]
            · intro hacc
              have := configureNetwork_accepted env unifi t1 (team.Id.tdiv 100)
                (team.Id.tmod 100) (networkIdsOf unifi.networkIds i)
                (hacc i (by simp) team ht).2
              rw [hc2] at this
              exact this
      · rw [hc1] at hreset
        have hloop : unifiConfigureNetworksLoop env unifi teams (i :: rest) tr =
            (t1, some err1) := by
          simp [unifiConfigureNetworksLoop, ht, hc1]
        rw [hloop]
        have hacc1 : (∀ j ∈ i :: rest, ∀ team, teams j = some team →
            accepted env (resetRequest unifi j) ∧ accepted env (networkRequest unifi j team)) →
            (t1, some err1).2 = none := by
          intro hacc
          have := configureNetwork_accepted env unifi tr 0 (101 + (i.val : Int))
            (networkIdsOf unifi.networkIds i) (hacc i (by simp) team ht).1
          rw [hc1] at this
          exact this
        rcases hreset.2 with hq | hq
        · exact ⟨[], by simp [hq], List.nil_prefix, fun h => by simp at h, hacc1⟩
        · refine ⟨[resetRequest unifi i], by rw [hq]; rfl, ?_, fun h => by simp at h, hacc1⟩
          simp [networkPushesFor, ht, List.cons_prefix_cons]

/-- C10: the network configuration requests of `unifiConfigureNetworks` are
always an initial part of the list that has, for each slot `i` with a team
`t` in ascending order, first the reset request with octets `0` and `101 + i`
and then the team request with octets `t / 100` and `t % 100`; they are the
whole list when the function returns nil, which it does when the controller
accepts all of them.  For a team id `t ≥ 0` the two octets recombine to `t`,
so teams with different ids get different octets, and the reset octets of a
slot are never the octets of a team. -/
theorem c10_subnet_derivation (env : Env) (unifi : UnifiClient) (tr : List Event)
    (teams : Teams) :
    (∃ pre, httpRequests (unifiConfigureNetworks env unifi tr teams).1 = httpRequests tr ++ pre ∧
      pre <+: networkPushesFor unifi teams (List.finRange 6) ∧
      ((unifiConfigureNetworks env unifi tr teams).2 = none →
        pre = networkPushesFor unifi teams (List.finRange 6))) ∧
    ((∀ i team, teams i = some team →
        accepted env (resetRequest unifi i) ∧ accepted env (networkRequest unifi i team)) →
      (unifiConfigureNetworks env unifi tr teams).2 = none) ∧
    (∀ (i : Fin 6) (team : Team),
      resetRequest unifi i =
        .putNetworkconf unifi.unifiAddress (networkIdsOf unifi.networkIds i) 0 (101 + (i.val : Int)) ∧
      networkRequest unifi i team =
        .putNetworkconf unifi.unifiAddress (networkIdsOf unifi.networkIds i)
          (team.Id.tdiv 100) (team.Id.tmod 100)) ∧
    (∀ t : Int, 0 ≤ t → 100 * t.tdiv 100 + t.tmod 100 = t ∧ 0 ≤ t.tmod 100 ∧ t.tmod 100 < 100) ∧
    (∀ (i j : Fin 6) (t1 t2 : Team), 0 ≤ t1.Id → 0 ≤ t2.Id → t1.Id ≠ t2.Id →
      networkRequest unifi i t1 ≠ networkRequest unifi j t2) ∧
    (∀ (i j : Fin 6) (team : Team), 0 ≤ team.Id →
      resetRequest unifi j ≠ networkRequest unifi i team) := by
  have hdiv : ∀ t : Int, 0 ≤ t →
      100 * t.tdiv 100 + t.tmod 100 = t ∧ 0 ≤ t.tmod 100 ∧ t.tmod 100 < 100 := by
    intro t ht
    refine ⟨?_, Int.tmod_nonneg _ ht, ?_⟩
    · have := Int.tmod_add_tdiv t 100
      omega
    · exact Int.tmod_lt_of_pos t (by norm_num)
  obtain ⟨pre, h1, h2, h3, h4⟩ :=
    unifiConfigureNetworksLoop_requests env unifi teams (List.finRange 6) tr
  refine ⟨⟨pre, h1, h2, h3⟩, fun hacc => h4 (fun i _ team hteam => hacc i team hteam),
    fun i team => ⟨rfl, rfl⟩, hdiv, ?_, ?_⟩
  · intro i j t1 t2 h1 h2 hne heq
    simp only [networkRequest, HttpRequest.putNetworkconf.injEq] at heq
    obtain ⟨_, _, hd, hm⟩ := heq
    have e1 := (hdiv t1.Id h1).1
    have e2 := (hdiv t2.Id h2).1
    rw [hd, hm] at e1
    exact hne (e1.symm.trans e2)
  · intro i j team ht heq
    simp only [networkRequest, resetRequest, HttpRequest.putNetworkconf.injEq] at heq
    obtain ⟨_, _, hd, hm⟩ := heq
    have := (hdiv team.Id ht).2.2
    omega

/-- Witness for C10: against a controller that accepts everything, `teamsC`
(254 in slot 0, 1678 in slot 3) gives the reset and the team subnet of slot 0
and then those of slot 3. -/
theorem c10_subnet_derivation_witness :
    httpRequests (unifiConfigureNetworks envHuge sampleUnifi [] teamsC).1 =
      [.putNetworkconf "10.0.100.2" "net1" 0 101, .putNetworkconf "10.0.100.2" "net1" 2 54,
        .putNetworkconf "10.0.100.2" "net4" 0 104, .putNetworkconf "10.0.100.2" "net4" 16 78] := by
  obtain ⟨pre, h1, _, h3⟩ := (c10_subnet_derivation envHuge sampleUnifi [] teamsC).1
  rw [h1, h3 rfl]
  decide

/-! ## Retry until the status matches -/

theorem Extends.statusReadCount_eq {P : Event → Bool} {tr tr1 : List Event}
    (h : Extends P tr tr1) (hP : ∀ e, P e = true → isStatusReadEvent e = false) :
    statusReadCount tr1 = statusReadCount tr := by
  obtain ⟨ext, rfl, hc⟩ := h
  have : ext.countP isStatusReadEvent = 0 := by
    rw [List.countP_eq_zero]
    intro e he
    simp [hP e (hc e he)]
  simp [statusReadCount, List.countP_append, this]

theorem Extends.attemptReports_eq {P : Event → Bool} {tr tr1 : List Event}
    (h : Extends P tr tr1) (hP : ∀ e, P e = true → reportOf e = none) :
    attemptReports tr1 = attemptReports tr :=
  h.filterMap_eq reportOf hP

theorem isLoginEvent_facts (e : Event) (h : isLoginEvent e = true) :
    isStatusReadEvent e = false ∧ reportOf e = none := by
  rcases e with r | s | o
  · cases r <;> simp_all [isLoginEvent, isStatusReadEvent, reportOf]
  · simp_all [isLoginEvent]
  · cases o <;> simp_all [isLoginEvent, isStatusReadEvent, reportOf]

theorem isWlanPushEvent_facts (e : Event) (h : isWlanPushEvent e = true) :
    isStatusReadEvent e = false ∧ reportOf e = none := by
  rcases e with r | s | o
  · cases r <;> simp_all [isWlanPushEvent, isStatusReadEvent, reportOf]
  · simp_all [isWlanPushEvent]
  · cases o <;> simp_all [isWlanPushEvent, isStatusReadEvent, reportOf]

theorem unifiGetConfiguredSsids_ok (env : Env) (unifi : UnifiClient) (tr : List Event)
    (output : UnifiConfiguredSsids) (h : (unifiGetConfiguredSsids env unifi tr).2 = .ok output) :
    (unifiGetConfiguredSsids env unifi tr).1 = tr ++ [.http (.getWlanconf unifi.unifiAddress)] := by
  unfold unifiGetConfiguredSsids at h ⊢
  dsimp only at h ⊢
  by_cases h1 : env.newRequestFails (.getWlanconf unifi.unifiAddress) = true
  · simp [h1] at h
  · cases hr : env.roundTrip tr (.getWlanconf unifi.unifiAddress) with
    | none => simp [h1, hr]
    | some resp =>
      rw [if_neg h1]
      dsimp only
      split_ifs <;> (try split) <;> rfl

theorem ssidsMatch_iff (ap : AccessPoint) (teams : Teams) (output : UnifiConfiguredSsids) :
    configIsCorrectForTeams (markFetched (storeSsids ap output)) teams = ssidsMatch teams output := by
  rw [Bool.eq_iff_iff, configIsCorrect_iff]
  simp only [(markFetched_frame _).2.2.2, (markFetched_frame _).2.2.1, storeSsids_status,
    true_and, ssidsMatch, List.all_eq_true, List.mem_finRange, forall_const]
  constructor
  · intro h i
    cases ht : teams i with
    | none => rfl
    | some team => simpa using h i team ht
  · intro h i team ht
    have := h i
    rw [ht] at this
    simpa using this

/-- One cycle against a controller whose login and configuration always
succeed and whose next status read succeeds. -/
theorem configAttempt_of_success (env : Env) (ap : AccessPoint) (unifi : UnifiClient)
    (tr : List Event) (teams : Teams) (attemptCount : Int) (hu : ap.unifi = some unifi)
    (hlogin : ∀ t, (unifiLogin env unifi t).2 = none)
    (hconf : ∀ t, (unifiConfigureWifi env unifi t teams).2 = none) :
    ∃ trr, statusReadCount trr = statusReadCount tr ∧ attemptReports trr = attemptReports tr ∧
      ∀ output, (unifiGetConfiguredSsids env unifi trr).2 = .ok output →
        ∃ tr1, configAttempt env ap tr teams attemptCount =
            .ok (markFetched (storeSsids ap output), tr1, ssidsMatch teams output) ∧
          statusReadCount tr1 = statusReadCount tr + 1 ∧
          attemptReports tr1 = attemptReports tr ++
            [if ssidsMatch teams output = true then .successAfter attemptCount
              else .stillIncorrect attemptCount] := by
  rcases hl : unifiLogin env unifi tr with ⟨t1, e1⟩
  have he1 : e1 = none := by simpa [hl] using hlogin tr
  subst he1
  have x1 : Extends isLoginEvent tr t1 := by simpa [hl] using unifiLogin_trace env unifi tr
  rcases hc : unifiConfigureWifi env unifi t1 teams with ⟨t2, e2⟩
  have he2 : e2 = none := by simpa [hc] using hconf t1
  subst he2
  have x2 : Extends isWlanPushEvent t1 t2 := by
    simpa [hc] using unifiConfigureWifi_trace env unifi t1 teams
  rcases hl2 : unifiLogin env unifi (t2 ++ [.sleep accessPointConfigRetryIntervalSec])
    with ⟨t3, e3⟩
  have he3 : e3 = none := by
    have := hlogin (t2 ++ [.sleep accessPointConfigRetryIntervalSec])
    rw [hl2] at this
    exact this
  subst he3
  have x3 : Extends isLoginEvent (t2 ++ [.sleep accessPointConfigRetryIntervalSec]) t3 := by
    have := unifiLogin_trace env unifi (t2 ++ [.sleep accessPointConfigRetryIntervalSec])
    rw [hl2] at this
    exact this
  have c3 : statusReadCount t3 = statusReadCount tr := by
    rw [x3.statusReadCount_eq (fun e he => (isLoginEvent_facts e he).1)]
    have : statusReadCount (t2 ++ [.sleep accessPointConfigRetryIntervalSec]) =
        statusReadCount t2 := by
      simp [statusReadCount, List.countP_append, isStatusReadEvent]
    rw [this, x2.statusReadCount_eq (fun e he => (isWlanPushEvent_facts e he).1),
      x1.statusReadCount_eq (fun e he => (isLoginEvent_facts e he).1)]
  have r3 : attemptReports t3 = attemptReports tr := by
    rw [x3.attemptReports_eq (fun e he => (isLoginEvent_facts e he).2)]
    have : attemptReports (t2 ++ [.sleep accessPointConfigRetryIntervalSec]) =
        attemptReports t2 := by
      simp [attemptReports, reportOf]
    rw [this, x2.attemptReports_eq (fun e he => (isWlanPushEvent_facts e he).2),
      x1.attemptReports_eq (fun e he => (isLoginEvent_facts e he).2)]
  refine ⟨t3, c3, r3, fun output hout => ?_⟩
  have hget := unifiGetConfiguredSsids_ok env unifi t3 output hout
  rcases hg : unifiGetConfiguredSsids env unifi t3 with ⟨t4, r⟩
  rw [hg] at hout hget
  dsimp only at hout hget
  subst hout
  have hupd : updateTeamWifiStatuses env ap (t2 ++ [.sleep accessPointConfigRetryIntervalSec]) =
      .ok (markFetched (storeSsids ap output), t4, none) := by
    simp [updateTeamWifiStatuses, hu, hl2, hg]
  have hatt : configAttempt env ap tr teams attemptCount =
      .ok (markFetched (storeSsids ap output),
        t4 ++ [.out (if ssidsMatch teams output = true then .successAfter attemptCount
          else .stillIncorrect attemptCount)], ssidsMatch teams output) := by
    unfold configAttempt
    simp only [hu, hl, hc, hupd, ssidsMatch_iff]
    cases ssidsMatch teams output <;> simp
  refine ⟨_, hatt, ?_, ?_⟩
  · rw [hget]
    simp only [statusReadCount, List.countP_append] at c3 ⊢
    rw [c3]
    cases ssidsMatch teams output <;> simp [isStatusReadEvent]
  · rw [hget]
    simp only [attemptReports, List.filterMap_append] at r3 ⊢
    rw [r3]
    cases ssidsMatch teams output <;> simp [reportOf]

theorem wrapInt64_small : wrapInt64 (1 + 1) = 2 ∧ wrapInt64 (2 + 1) = 3 := by
  constructor <;> decide

/-- C5: take a desired assignment that is not converged when handling starts
and a controller whose login and configuration always succeed and whose first
three status reads from then on succeed, with a mismatching result on the
first two and a matching result on the third.  Then `handleTeamWifiConfiguration`, given
at least three passes of its loop, returns after exactly the reports "still
incorrect after 1", "still incorrect after 2", "success after 3" and three
status reads, with the configuration correct for the desired teams (every slot
with a team shows that team's id).  And whenever
`handleTeamWifiConfiguration` returns, on any controller, the configuration
is correct for the desired teams. -/
theorem c5_retry_until_match (env : Env) (ap : AccessPoint) (unifi : UnifiClient)
    (tr : List Event) (teams : Teams) (fuel : Nat) (hu : ap.unifi = some unifi)
    (hnot : configIsCorrectForTeams ap teams = false)
    (hlogin : ∀ t, (unifiLogin env unifi t).2 = none)
    (hconf : ∀ t, (unifiConfigureWifi env unifi t teams).2 = none)
    (hread : ∀ t, statusReadCount t ≤ statusReadCount tr + 2 →
      ∃ output, (unifiGetConfiguredSsids env unifi t).2 = .ok output ∧
        (ssidsMatch teams output = true ↔ statusReadCount t = statusReadCount tr + 2))
    (hfuel : 3 ≤ fuel) :
    (∃ ap1 tr1, handleTeamWifiConfiguration fuel env ap tr teams = .ok (ap1, tr1) ∧
      attemptReports tr1 =
        attemptReports tr ++ [.stillIncorrect 1, .stillIncorrect 2, .successAfter 3] ∧
      statusReadCount tr1 = statusReadCount tr + 3 ∧
      configIsCorrectForTeams ap1 teams = true ∧
      ∀ i team, teams i = some team → (ap1.TeamWifiStatuses i).TeamId = team.Id) ∧
    (∀ fuel1 env1 ap0 tr0 ap1 tr1,
      handleTeamWifiConfiguration fuel1 env1 ap0 tr0 teams = .ok (ap1, tr1) →
      configIsCorrectForTeams ap1 teams = true) := by
  refine ⟨?_, fun fuel1 env1 ap0 tr0 ap1 tr1 h =>
    (handleTeamWifiConfiguration_frame fuel1 env1 ap0 ap1 tr0 tr1 teams h).2.2.2.2⟩
  obtain ⟨f, rfl⟩ : ∃ f, fuel = f + 3 := ⟨fuel - 3, by omega⟩
  have c0 : statusReadCount (tr ++ [.out (.teams (List.ofFn teams))]) = statusReadCount tr := by
    simp [statusReadCount, List.countP_append, isStatusReadEvent]
  have r0 : attemptReports (tr ++ [.out (.teams (List.ofFn teams))]) = attemptReports tr := by
    simp [attemptReports, reportOf]
  -- first cycle
  obtain ⟨q1, hc1, _, hstep1⟩ := configAttempt_of_success env ap unifi
    (tr ++ [.out (.teams (List.ofFn teams))]) teams 1 hu hlogin hconf
  obtain ⟨out1, hout1, hiff1⟩ := hread q1 (by omega)
  have m1 : ssidsMatch teams out1 = false := by
    rw [← Bool.not_eq_true, hiff1]
    omega
  obtain ⟨t1, hatt1, hcnt1, hrep1⟩ := hstep1 out1 hout1
  rw [m1] at hatt1 hrep1
  have hu1 : (markFetched (storeSsids ap out1)).unifi = some unifi := by
    rw [(markFetched_frame _).1, (storeSsids_frame _ _).1, hu]
  -- second cycle
  obtain ⟨q2, hc2, _, hstep2⟩ := configAttempt_of_success env (markFetched (storeSsids ap out1))
    unifi t1 teams 2 hu1 hlogin hconf
  obtain ⟨out2, hout2, hiff2⟩ := hread q2 (by omega)
  have m2 : ssidsMatch teams out2 = false := by
    rw [← Bool.not_eq_true, hiff2]
    omega
  obtain ⟨t2, hatt2, hcnt2, hrep2⟩ := hstep2 out2 hout2
  rw [m2] at hatt2 hrep2
  have hu2 : (markFetched (storeSsids (markFetched (storeSsids ap out1)) out2)).unifi =
      some unifi := by
    rw [(markFetched_frame _).1, (storeSsids_frame _ _).1, hu1]
  -- third cycle
  obtain ⟨q3, hc3, _, hstep3⟩ := configAttempt_of_success env
    (markFetched (storeSsids (markFetched (storeSsids ap out1)) out2)) unifi t2 teams 3 hu2
    hlogin hconf
  obtain ⟨out3, hout3, hiff3⟩ := hread q3 (by omega)
  have m3 : ssidsMatch teams out3 = true := hiff3.2 (by omega)
  obtain ⟨t3, hatt3, hcnt3, hrep3⟩ := hstep3 out3 hout3
  rw [m3] at hatt3 hrep3
  have hok : configIsCorrectForTeams
      (markFetched (storeSsids (markFetched (storeSsids (markFetched (storeSsids ap out1)) out2))
        out3)) teams = true := by
    rw [ssidsMatch_iff, m3]
  refine ⟨_, t3, ?_, ?_, by omega, hok, ((configIsCorrect_iff _ _).1 hok).2⟩
  · unfold handleTeamWifiConfiguration
    simp only [hnot, Bool.false_eq_true, if_false]
    simp only [handleLoop, hatt1, wrapInt64_small.1, hatt2, wrapInt64_small.2, hatt3]
  · rw [hrep3, hrep2, hrep1, r0]
    simp

/-- Witness for C5: the controller `envRetry` against the fresh access point
and the assignment `teamsA`. -/
theorem c5_retry_until_match_witness :
    ∃ ap1 tr1, handleTeamWifiConfiguration 3 envRetry apFresh [] teamsA = .ok (ap1, tr1) ∧
      attemptReports tr1 =
        attemptReports [] ++ [.stillIncorrect 1, .stillIncorrect 2, .successAfter 3] ∧
      statusReadCount tr1 = statusReadCount [] + 3 ∧
      configIsCorrectForTeams ap1 teamsA = true ∧
      ∀ i team, teamsA i = some team → (ap1.TeamWifiStatuses i).TeamId = team.Id :=
  (c5_retry_until_match envRetry apFresh sampleUnifi [] teamsA 3 rfl (by decide)
    (fun _ => rfl) (fun _ => rfl)
    (fun t ht => by
      by_cases h : statusReadCount t < 2
      · refine ⟨⟨"254", "", "", "", "", ""⟩, ?_, ?_⟩
        · simp [unifiGetConfiguredSsids, envRetry, h, sampleUnifi, sampleIds, assignSsid]
        · have hm : ssidsMatch teamsA ⟨"254", "", "", "", "", ""⟩ = false := by decide
          simp only [hm, Bool.false_eq_true, false_iff]
          simp [statusReadCount] at h ⊢
          omega
      · refine ⟨⟨"100", "", "", "", "", ""⟩, ?_, ?_⟩
        · simp [unifiGetConfiguredSsids, envRetry, h, sampleUnifi, sampleIds, assignSsid]
        · have hm : ssidsMatch teamsA ⟨"100", "", "", "", "", ""⟩ = true := by decide
          simp only [hm, true_iff]
          simp [statusReadCount] at h ht ⊢
          omega)
    (le_refl 3)).1

end Network
